import Mathlib

/-!
# SchemaViewsScanner (be/src/exec/schema_scanner/schema_views_scanner.cpp)

A shallow embedding of the `information_schema.views` scanner: the scanner object is an
explicit state record, the frontend catalog is an oracle that is handed the history of the
calls made so far, and every member function is a state-passing function.  Reads that are
undefined behaviour in C++ (an index out of range) make the embedded function return `none`.
-/

namespace starrocks

/-! ## Collaborator types -/

/-- Modelled from the spec: the `Status` class is declared outside this file.  The source
builds `Status::OK()` and `Status::InternalError(msg)`; the spec names the two error kinds
a catalog call can fail with (`CatalogUnavailable`, `AuthorizationError`). -/
inductive Status where
  | OK
  | InternalError (msg : String)
  | CatalogUnavailable (msg : String)
  | AuthorizationError (msg : String)
  deriving DecidableEq, Repr

/-- The test `st.ok()` that `RETURN_IF_ERROR` performs. -/
def Status.ok : Status → Bool
  | .OK => true
  | _ => false

/-- Modelled from the spec: the resolved principal identity ("explicit identity") carried by
a request; the thrift declaration is outside this file. -/
structure TUserIdentity where
  username : String
  host : String
  deriving DecidableEq, Repr

/-- Modelled from the spec: the Enumeration Request (`SchemaScannerParam`): optional
database-name pattern, optional view-name pattern, optional identity (explicit, or a raw
user-name / user-ip pair).  A null pointer member is `none`. -/
structure SchemaScannerParam where
  db : Option String
  wild : Option String
  user : Option String
  user_ip : Option String
  current_user_ident : Option TUserIdentity
  deriving DecidableEq, Repr

/-- Modelled from the spec: the request of `list_databases(pattern?, identity)`.  A thrift
field that was never `__set_` is `none`. -/
structure TGetDbsParams where
  pattern : Option String
  user : Option String
  user_ip : Option String
  current_user_ident : Option TUserIdentity
  deriving DecidableEq, Repr

/-- Modelled from the spec: the relation kinds a table-status request can be filtered to;
the source only names `TTableType::VIEW`. -/
inductive TTableType where
  | MYSQL_TABLE
  | OLAP_TABLE
  | SCHEMA_TABLE
  | VIEW
  deriving DecidableEq, Repr

/-- Modelled from the spec: the request of `list_views(db_name, pattern?, identity)`.  A
thrift field that was never `__set_` is `none`. -/
structure TGetTablesParams where
  db : Option String
  pattern : Option String
  user : Option String
  user_ip : Option String
  current_user_ident : Option TUserIdentity
  type : Option TTableType
  deriving DecidableEq, Repr

/-- Modelled from the spec: the Database List, an ordered sequence of database names. -/
structure TGetDbsResult where
  dbs : List String
  deriving DecidableEq, Repr

/-- Modelled from the spec: a view record `{name, ddl_sql}`. -/
structure TTableStatus where
  name : String
  ddl_sql : String
  deriving DecidableEq, Repr

/-- Modelled from the spec: the View List, an ordered sequence of view records. -/
structure TListTableStatusResult where
  tables : List TTableStatus
  deriving DecidableEq, Repr

/-- One remote call issued to the catalog. -/
inductive CatalogCall where
  | get_db_names (params : TGetDbsParams)
  | list_table_status (params : TGetTablesParams)
  deriving DecidableEq, Repr

/-- Modelled from the spec: the Catalog Client (`SchemaHelper`), whose code is outside this
file.  Each remote call receives the history of the calls issued so far (so that the answer
to a repeated request may differ), the request, and the current content of the
out-parameter; it returns a status and the content of the out-parameter after the call.
`extract_db_name` is the database-name extraction helper. -/
structure SchemaHelper where
  get_db_names : List CatalogCall → TGetDbsParams → TGetDbsResult → Status × TGetDbsResult
  list_table_status :
    List CatalogCall → TGetTablesParams → TListTableStatusResult → Status × TListTableStatusResult
  extract_db_name : String → String

/-- Modelled from the spec: the columnar batch, "typed output columns that support
appending typed values by logical column identifier".  Each column is stored with the slot
id it is registered under; the position in the list is the column index. -/
structure Chunk where
  columns : List (Int × List String)
  deriving DecidableEq, Repr

/-- Modelled from the spec: `Chunk::get_slot_id_to_index_map`, the (slot id, column index)
pairs in iteration order. -/
def Chunk.get_slot_id_to_index_map (chunk : Chunk) : List (Int × Nat) :=
  chunk.columns.enum.map fun p => (p.2.1, p.1)

/-- Appending `value` to the first column registered under `slot_id`; `none` when there is
no such column. -/
def appendToSlot : List (Int × List String) → Int → String → Option (List (Int × List String))
  | [], _, _ => none
  | (k, col) :: rest, slot_id, value =>
    if k = slot_id then some ((k, col ++ [value]) :: rest)
    else (appendToSlot rest slot_id value).map fun r => (k, col) :: r

/-- Modelled from the spec: `get_column_by_slot_id(slot_id)` followed by
`fill_column_with_slot<TYPE_VARCHAR>(column, &value)`: the value is appended to the column
registered under `slot_id`.  Asking for a slot id the chunk does not have is `none`. -/
def Chunk.fill_column_with_slot (chunk : Chunk) (slot_id : Int) (value : String) : Option Chunk :=
  (appendToSlot chunk.columns slot_id value).map Chunk.mk

/-! ## The scanner object -/

/-- The data members `SchemaViewsScanner` works on.  `_is_init` and `_param` belong to the
base class `SchemaScanner`; the two cursors and the two cached catalog answers are the
scanner's own.  The cursors are C++ integers that are only ever incremented by one or set
to 0, and are compared with and used as indices into lists held in memory; they are
natural numbers here.  `_param` is the request behind the (non-null) `_param` pointer. -/
structure SchemaViewsScanner where
  _is_init : Bool
  _param : SchemaScannerParam
  _db_index : Nat
  _table_index : Nat
  _db_result : TGetDbsResult
  _table_result : TListTableStatusResult
  deriving DecidableEq, Repr

/-- Modelled from the spec: the logical types of the engine's columns, declared outside
this file; "variable-length text" is `TYPE_VARCHAR`. -/
inductive LogicalType where
  | TYPE_INT
  | TYPE_BIGINT
  | TYPE_VARCHAR
  | TYPE_DATETIME
  deriving DecidableEq, Repr

/-- Modelled from the spec: a column type (`TypeDescriptor`), a logical type with a
length; declared outside this file. -/
structure TypeDescriptor where
  type : LogicalType
  len : Nat
  deriving DecidableEq, Repr

/-- Modelled from the spec: `TypeDescriptor::create_varchar_type(len)`, the
variable-length text type. -/
def TypeDescriptor.create_varchar_type (len : Nat) : TypeDescriptor :=
  ⟨LogicalType.TYPE_VARCHAR, len⟩

/-- Column descriptor of the declared output schema (`SchemaScanner::ColumnDesc`):
name, type, size, is_null. -/
structure ColumnDesc where
  name : String
  type : TypeDescriptor
  size : Nat
  is_null : Bool
  deriving DecidableEq, Repr

/-- The declared output schema, `SchemaViewsScanner::_s_tbls_columns`.  `sizeof(Slice)`
is the parameter `sizeof_Slice`. -/
def _s_tbls_columns (sizeof_Slice : Nat) : List ColumnDesc :=
  [ ⟨"TABLE_CATALOG", TypeDescriptor.create_varchar_type sizeof_Slice, sizeof_Slice, true⟩,
    ⟨"TABLE_SCHEMA", TypeDescriptor.create_varchar_type sizeof_Slice, sizeof_Slice, false⟩,
    ⟨"TABLE_NAME", TypeDescriptor.create_varchar_type sizeof_Slice, sizeof_Slice, false⟩,
    ⟨"VIEW_DEFINITION", TypeDescriptor.create_varchar_type sizeof_Slice, sizeof_Slice, false⟩,
    ⟨"CHECK_OPTION", TypeDescriptor.create_varchar_type sizeof_Slice, sizeof_Slice, false⟩,
    ⟨"IS_UPDATABLE", TypeDescriptor.create_varchar_type sizeof_Slice, sizeof_Slice, false⟩,
    ⟨"DEFINER", TypeDescriptor.create_varchar_type sizeof_Slice, sizeof_Slice, false⟩,
    ⟨"SECURITY_TYPE", TypeDescriptor.create_varchar_type sizeof_Slice, sizeof_Slice, false⟩,
    ⟨"CHARACTER_SET_CLIENT", TypeDescriptor.create_varchar_type sizeof_Slice, sizeof_Slice,
      false⟩,
    ⟨"COLLATION_CONNECTION", TypeDescriptor.create_varchar_type sizeof_Slice, sizeof_Slice,
      false⟩ ]

/-- What a member function that returns a `Status` leaves behind: the status, the scanner
object and the history of catalog calls. -/
structure CallResult where
  status : Status
  scanner : SchemaViewsScanner
  trace : List CatalogCall
  deriving DecidableEq, Repr

/-! ## `SchemaViewsScanner::start` -/

/-- The `TGetDbsParams` that `start` fills in from `_param` (lines 45-58). -/
def start_db_params (param : SchemaScannerParam) : TGetDbsParams :=
  let db_params : TGetDbsParams := ⟨none, none, none, none⟩
  let db_params :=
    match param.db with
    | some db => { db_params with pattern := some db }
    | none => db_params
  match param.current_user_ident with
  | some ident => { db_params with current_user_ident := some ident }
  | none =>
    let db_params :=
      match param.user with
      | some user => { db_params with user := some user }
      | none => db_params
    match param.user_ip with
    | some user_ip => { db_params with user_ip := some user_ip }
    | none => db_params

/-- `SchemaViewsScanner::start`.  `init_schema_scanner_state` is the status returned by the
base-class call `SchemaScanner::init_schema_scanner_state(state)`, whose code is outside
this file. -/
def start (helper : SchemaHelper) (init_schema_scanner_state : Status)
    (self : SchemaViewsScanner) (trace : List CatalogCall) : CallResult :=
  if !self._is_init then
    ⟨Status.InternalError "used before initialized.", self, trace⟩
  else
    let db_params := start_db_params self._param
    if !init_schema_scanner_state.ok then
      ⟨init_schema_scanner_state, self, trace⟩
    else
      let answer := helper.get_db_names trace db_params self._db_result
      let self := { self with _db_result := answer.2 }
      let trace := trace ++ [CatalogCall.get_db_names db_params]
      if !answer.1.ok then ⟨answer.1, self, trace⟩
      else ⟨Status.OK, self, trace⟩

/-! ## `SchemaViewsScanner::fill_chunk` -/

/-- The body of the `switch (slot_id)` of `fill_chunk` for one entry of the slot map. -/
def fill_slot (helper : SchemaHelper) (self : SchemaViewsScanner) (tbl_status : TTableStatus)
    (chunk : Chunk) (slot_id : Int) : Option Chunk :=
  match slot_id with
  | 1 => chunk.fill_column_with_slot 1 "def"
  | 2 =>
    if self._db_index = 0 then none
    else
      match self._db_result.dbs[self._db_index - 1]? with
      | none => none
      | some db => chunk.fill_column_with_slot 2 (helper.extract_db_name db)
  | 3 => chunk.fill_column_with_slot 3 tbl_status.name
  | 4 => chunk.fill_column_with_slot 4 tbl_status.ddl_sql
  | 5 => chunk.fill_column_with_slot 5 "NONE"
  | 6 => chunk.fill_column_with_slot 6 "NO"
  | 7 => chunk.fill_column_with_slot 7 ""
  | 8 => chunk.fill_column_with_slot 8 ""
  | 9 => chunk.fill_column_with_slot 9 "utf8"
  | 10 => chunk.fill_column_with_slot 10 "utf8_general_ci"
  | _ => some chunk

/-- `SchemaViewsScanner::fill_chunk`: the loop over the slot map, then `_table_index++`.
`none` is an out-of-range read of `tables[_table_index]` or of `dbs[_db_index - 1]`. -/
def fill_chunk (helper : SchemaHelper) (self : SchemaViewsScanner) (chunk : Chunk) :
    Option (Status × SchemaViewsScanner × Chunk) :=
  match self._table_result.tables[self._table_index]? with
  | none => none
  | some tbl_status =>
    match chunk.get_slot_id_to_index_map.foldlM
        (fun c entry => fill_slot helper self tbl_status c entry.1) chunk with
    | none => none
    | some chunk =>
      some (Status.OK, { self with _table_index := self._table_index + 1 }, chunk)

/-! ## `SchemaViewsScanner::get_new_table` -/

/-- The identity and pattern fields `get_new_table` sets on its request (lines 184-197). -/
def get_new_table_params (param : SchemaScannerParam) (db : String) : TGetTablesParams :=
  let table_params : TGetTablesParams := ⟨none, none, none, none, none, none⟩
  let table_params := { table_params with db := some db }
  let table_params :=
    match param.wild with
    | some wild => { table_params with pattern := some wild }
    | none => table_params
  let table_params :=
    match param.current_user_ident with
    | some ident => { table_params with current_user_ident := some ident }
    | none =>
      let table_params :=
        match param.user with
        | some user => { table_params with user := some user }
        | none => table_params
      match param.user_ip with
      | some user_ip => { table_params with user_ip := some user_ip }
      | none => table_params
  { table_params with type := some TTableType.VIEW }

/-- `SchemaViewsScanner::get_new_table`.  `_db_index++` happens while the request is being
built, before the remote call; `_table_index = 0` only after a successful call.  `none` is
an out-of-range read of `dbs[_db_index]`. -/
def get_new_table (helper : SchemaHelper) (self : SchemaViewsScanner)
    (trace : List CatalogCall) : Option CallResult :=
  match self._db_result.dbs[self._db_index]? with
  | none => none
  | some db =>
    let self := { self with _db_index := self._db_index + 1 }
    let table_params := get_new_table_params self._param db
    let answer := helper.list_table_status trace table_params self._table_result
    let self := { self with _table_result := answer.2 }
    let trace := trace ++ [CatalogCall.list_table_status table_params]
    if !answer.1.ok then some ⟨answer.1, self, trace⟩
    else some ⟨Status.OK, { self with _table_index := 0 }, trace⟩

/-! ## `SchemaViewsScanner::get_next` -/

/-- How the `while` loop of `get_next` is left. -/
inductive WhileExit where
  /-- `RETURN_IF_ERROR(get_new_table())` returned the status -/
  | error (status : Status)
  /-- the `else` branch: `*eos = true; return Status::OK();` -/
  | eos
  /-- the loop condition became false -/
  | done
  deriving DecidableEq, Repr

set_option linter.unusedVariables false in
/-- The `while (_table_index >= _table_result.tables.size())` loop of `get_next`
(lines 211-218). -/
def get_next_while (helper : SchemaHelper) (self : SchemaViewsScanner)
    (trace : List CatalogCall) : Option (WhileExit × SchemaViewsScanner × List CatalogCall) :=
  if self._table_index ≥ self._table_result.tables.length then
    if self._db_index < self._db_result.dbs.length then
      match h : get_new_table helper self trace with
      | none => none
      | some r =>
        if !r.status.ok then some (WhileExit.error r.status, r.scanner, r.trace)
        else get_next_while helper r.scanner r.trace
    else some (WhileExit.eos, self, trace)
  else some (WhileExit.done, self, trace)
termination_by self._db_result.dbs.length - self._db_index
decreasing_by
  unfold get_new_table at h
  split at h
  · simp at h
  · dsimp only at h
    split at h <;> (simp at h; subst h; simp only []; omega)

/-- What a `get_next` call leaves behind: the status, the scanner, the chunk and the `eos`
flag behind the two handles (`none` for a null handle), and the catalog call history. -/
structure GetNextResult where
  status : Status
  scanner : SchemaViewsScanner
  chunk : Option Chunk
  eos : Option Bool
  trace : List CatalogCall
  deriving DecidableEq, Repr

/-- `SchemaViewsScanner::get_next`.  `chunk` and `eos` are the two handles: `none` is
`nullptr`, `some x` points at `x`. -/
def get_next (helper : SchemaHelper) (self : SchemaViewsScanner) (chunk : Option Chunk)
    (eos : Option Bool) (trace : List CatalogCall) : Option GetNextResult :=
  if !self._is_init then
    some ⟨Status.InternalError "Used before initialized.", self, chunk, eos, trace⟩
  else
    match chunk, eos with
    | some c, some _ =>
      match get_next_while helper self trace with
      | none => none
      | some (WhileExit.error status, self, trace) => some ⟨status, self, chunk, eos, trace⟩
      | some (WhileExit.eos, self, trace) => some ⟨Status.OK, self, chunk, some true, trace⟩
      | some (WhileExit.done, self, trace) =>
        match fill_chunk helper self c with
        | none => none
        | some (status, self, c) => some ⟨status, self, some c, some false, trace⟩
    | _, _ => some ⟨Status.InternalError "input pointer is nullptr.", self, chunk, eos, trace⟩

/-! ## Specification-level definitions -/

/-- The row projection rule of the spec, column by column (`none`: not one of the ten columns). -/
def projection_rule (extract_db_name : String → String) (db_name : String)
    (view_record : TTableStatus) (column_id : Int) : Option String :=
  if column_id = 1 then some "def"
  else if column_id = 2 then some (extract_db_name db_name)
  else if column_id = 3 then some view_record.name
  else if column_id = 4 then some view_record.ddl_sql
  else if column_id = 5 then some "NONE"
  else if column_id = 6 then some "NO"
  else if column_id = 7 then some ""
  else if column_id = 8 then some ""
  else if column_id = 9 then some "utf8"
  else if column_id = 10 then some "utf8_general_ci"
  else none

/-- The chunk with one value appended to every column that `row` has a value for. -/
def Chunk.with_row (chunk : Chunk) (row : Int → Option String) : Chunk :=
  ⟨chunk.columns.map fun e => (e.1, e.2 ++ (row e.1).toList)⟩

/-- Well-formed slot map: every slot id is registered once. -/
def Chunk.WF (chunk : Chunk) : Prop := (chunk.columns.map Prod.fst).Nodup

instance (chunk : Chunk) : Decidable chunk.WF := by unfold Chunk.WF; infer_instance

/-- The `while` loop of `get_next` with the number of iterations bounded by `fuel`, by
structural recursion: the same body as `get_next_while`, and `none` when the fuel runs out
in front of a further fetch.  It agrees with `get_next_while` whenever `fuel` is at least
the number of databases not yet fetched (`get_next_while_eq_fuel`), and exists so that the
loop can be evaluated on concrete inputs. -/
def get_next_while_fuel (helper : SchemaHelper) :
    Nat → SchemaViewsScanner → List CatalogCall →
      Option (WhileExit × SchemaViewsScanner × List CatalogCall)
  | 0, self, trace =>
    if self._table_index ≥ self._table_result.tables.length then
      if self._db_index < self._db_result.dbs.length then none
      else some (WhileExit.eos, self, trace)
    else some (WhileExit.done, self, trace)
  | fuel + 1, self, trace =>
    if self._table_index ≥ self._table_result.tables.length then
      if self._db_index < self._db_result.dbs.length then
        match get_new_table helper self trace with
        | none => none
        | some r =>
          if !r.status.ok then some (WhileExit.error r.status, r.scanner, r.trace)
          else get_next_while_fuel helper fuel r.scanner r.trace
      else some (WhileExit.eos, self, trace)
    else some (WhileExit.done, self, trace)

/-- The executions of the `while` loop of `get_next`, as a relation between the state the
loop is entered with and the way and state it is left with. -/
inductive WhileRun (helper : SchemaHelper) :
    SchemaViewsScanner → List CatalogCall → WhileExit → SchemaViewsScanner →
      List CatalogCall → Prop where
  | done (self : SchemaViewsScanner) (trace : List CatalogCall)
      (hlt : self._table_index < self._table_result.tables.length) :
      WhileRun helper self trace WhileExit.done self trace
  | eos (self : SchemaViewsScanner) (trace : List CatalogCall)
      (hge : self._table_index ≥ self._table_result.tables.length)
      (hdb : ¬ self._db_index < self._db_result.dbs.length) :
      WhileRun helper self trace WhileExit.eos self trace
  | error (self : SchemaViewsScanner) (trace : List CatalogCall) (r : CallResult)
      (hge : self._table_index ≥ self._table_result.tables.length)
      (hdb : self._db_index < self._db_result.dbs.length)
      (hr : get_new_table helper self trace = some r) (hok : r.status.ok = false) :
      WhileRun helper self trace (WhileExit.error r.status) r.scanner r.trace
  | step (self : SchemaViewsScanner) (trace : List CatalogCall) (r : CallResult)
      (exit : WhileExit) (self' : SchemaViewsScanner) (trace' : List CatalogCall)
      (hge : self._table_index ≥ self._table_result.tables.length)
      (hdb : self._db_index < self._db_result.dbs.length)
      (hr : get_new_table helper self trace = some r) (hok : r.status.ok = true)
      (hrest : WhileRun helper r.scanner r.trace exit self' trace') :
      WhileRun helper self trace exit self' trace'

/-- Modelled from the spec: the scanner right after a successful `start`: initialised, both
cursors 0, the Database List `dbs` cached and the View List empty.  The member
initialisers of the two cursors are in the header, outside this file. -/
def fresh (param : SchemaScannerParam) (dbs : List String) : SchemaViewsScanner :=
  ⟨true, param, 0, 0, ⟨dbs⟩, ⟨[]⟩⟩

/-- The states a freshly started scanner reaches through `get_next` calls that return OK
(with non-null handles, any chunk and any initial `eos`).  The catalog history of a fresh
scanner is arbitrary. -/
inductive Reachable (helper : SchemaHelper) (param : SchemaScannerParam) (dbs : List String) :
    SchemaViewsScanner → List CatalogCall → Prop where
  | start (trace : List CatalogCall) : Reachable helper param dbs (fresh param dbs) trace
  | next (self : SchemaViewsScanner) (trace : List CatalogCall) (chunk : Chunk) (eos : Bool)
      (r : GetNextResult) (hreach : Reachable helper param dbs self trace)
      (hcall : get_next helper self (some chunk) (some eos) trace = some r)
      (hok : r.status = Status.OK) :
      Reachable helper param dbs r.scanner r.trace

/-- Modelled from the spec: Database-Name extraction (`SchemaHelper::extract_db_name`, whose
code is outside this file): of a catalog-qualified name such as `catalog.schema` only the
schema-local component, the part after the last dot, is kept; a name without a dot is
kept whole. -/
def extract_db_name (full_name : String) : String :=
  String.mk (full_name.data.reverse.takeWhile fun c => c != '.').reverse

/-- The request of the spec's scenarios: no pattern, no identity. -/
def scenario_param : SchemaScannerParam := ⟨none, none, none, none, none⟩

/-- The catalog of the spec's first scenario: Database List `["s1", "s2"]`,
`list_views("s1") = [{"v1", "SELECT 1"}]`, `list_views("s2") = []`. -/
def scenario_helper : SchemaHelper where
  get_db_names := fun _ _ _ => (Status.OK, ⟨["s1", "s2"]⟩)
  list_table_status := fun _ params _ =>
    (Status.OK, ⟨if params.db = some "s1" then [⟨"v1", "SELECT 1"⟩] else []⟩)
  extract_db_name := extract_db_name

/-- The catalog of the spec's last scenario: the first `list_databases` call fails with an
`AuthorizationError` and writes nothing; later calls answer as `scenario_helper`. -/
def denied_once_helper : SchemaHelper where
  get_db_names := fun trace _ old =>
    if trace = [] then (Status.AuthorizationError "access denied", old)
    else (Status.OK, ⟨["s1", "s2"]⟩)
  list_table_status := scenario_helper.list_table_status
  extract_db_name := extract_db_name

/-- A chunk with an empty column for each of the ten slot ids 1..10. -/
def scenario_chunk : Chunk :=
  ⟨[(1, []), (2, []), (3, []), (4, []), (5, []), (6, []), (7, []), (8, []), (9, []), (10, [])]⟩

/-- The ownership invariant of the scanner: either no View List has been fetched yet (both
`_db_index = 0` and the View List empty), or the last call in the catalog history is the
view-list fetch for `dbs[_db_index - 1]` and the cached View List is what that call wrote. -/
def Owned (helper : SchemaHelper) (self : SchemaViewsScanner) (trace : List CatalogCall) :
    Prop :=
  (self._db_index = 0 ∧ self._table_result.tables = []) ∨
  ∃ (trace1 : List CatalogCall) (old : TListTableStatusResult) (db : String),
    self._db_index ≠ 0 ∧ self._db_result.dbs[self._db_index - 1]? = some db ∧
    trace = trace1 ++ [CatalogCall.list_table_status (get_new_table_params self._param db)] ∧
    self._table_result
      = (helper.list_table_status trace1 (get_new_table_params self._param db) old).2

/-- The result of the first `get_next` call of the spec's first scenario: the row of view
`v1` of database `s1`. -/
def scenario_first_result : GetNextResult :=
  ⟨Status.OK, ⟨true, scenario_param, 1, 1, ⟨["s1", "s2"]⟩, ⟨[⟨"v1", "SELECT 1"⟩]⟩⟩,
    some ⟨[(1, ["def"]), (2, ["s1"]), (3, ["v1"]), (4, ["SELECT 1"]), (5, ["NONE"]),
      (6, ["NO"]), (7, [""]), (8, [""]), (9, ["utf8"]), (10, ["utf8_general_ci"])]⟩,
    some false,
    [CatalogCall.list_table_status (get_new_table_params scenario_param "s1")]⟩

/-- A catalog whose view-list fetch always fails with `CatalogUnavailable` and writes
nothing; the Database List is `["s1", "s2"]`. -/
def unavailable_helper : SchemaHelper where
  get_db_names := fun _ _ _ => (Status.OK, ⟨["s1", "s2"]⟩)
  list_table_status := fun _ _ old => (Status.CatalogUnavailable "rpc failed", old)
  extract_db_name := extract_db_name

/-- The invariant of the states a freshly started scanner reaches: the scanner is
initialised, request and Database List are the ones it was started with, both cursors are
within their lists, and the View List is owned by `dbs[_db_index - 1]`. -/
def ScannerInv (helper : SchemaHelper) (param : SchemaScannerParam) (dbs : List String)
    (self : SchemaViewsScanner) (trace : List CatalogCall) : Prop :=
  self._is_init = true ∧ self._param = param ∧ self._db_result.dbs = dbs ∧
    self._db_index ≤ dbs.length ∧
    self._table_index ≤ self._table_result.tables.length ∧ Owned helper self trace

/-- What the caller's pull loop leaves behind: the number of calls that produced a row,
whether the last call reported `eos`, the last status, and the scanner, chunk and catalog
history at the end. -/
structure ScanResult where
  rows : Nat
  eos : Bool
  status : Status
  scanner : SchemaViewsScanner
  chunk : Chunk
  trace : List CatalogCall
  deriving DecidableEq, Repr

/-- Modelled from the spec: the query engine's control flow, which "repeatedly calls
`produce_batch` until it signals end-of-stream" (the caller is outside this file).
`get_next` is called on the same chunk until it reports `eos`, fails, or `calls` calls have
been made. -/
def scan (helper : SchemaHelper) :
    Nat → SchemaViewsScanner → Chunk → List CatalogCall → Option ScanResult
  | 0, self, chunk, trace => some ⟨0, false, Status.OK, self, chunk, trace⟩
  | calls + 1, self, chunk, trace =>
    match get_next helper self (some chunk) (some false) trace with
    | none => none
    | some r =>
      if !r.status.ok then
        some ⟨0, false, r.status, r.scanner, r.chunk.getD chunk, r.trace⟩
      else if r.eos = some true then
        some ⟨0, true, Status.OK, r.scanner, r.chunk.getD chunk, r.trace⟩
      else
        (scan helper calls r.scanner (r.chunk.getD chunk) r.trace).map fun q =>
          { q with rows := q.rows + 1 }

/-- The (database, view record) pairs a scanner state still has to produce when the
catalog answers `views db` for database `db`: the unread records of the current View
List, then the view lists of the databases not fetched yet. -/
def remaining (views : String → List TTableStatus) (self : SchemaViewsScanner) :
    List (String × TTableStatus) :=
  ((self._table_result.tables.drop self._table_index).map fun v =>
      (self._db_result.dbs.getD (self._db_index - 1) "", v)) ++
    (self._db_result.dbs.drop self._db_index).flatMap fun db => (views db).map fun v => (db, v)

/-- The view lists of the spec's first scenario, by database. -/
def scenario_views (db : String) : List TTableStatus :=
  if db = "s1" then [⟨"v1", "SELECT 1"⟩] else []

/-- A catalog with two catalog-qualified databases `cat1.s1` and `cat2.s1`, each holding
one view named `v`. -/
def qualified_helper : SchemaHelper where
  get_db_names := fun _ _ _ => (Status.OK, ⟨["cat1.s1", "cat2.s1"]⟩)
  list_table_status := fun _ _ _ => (Status.OK, ⟨[⟨"v", "SELECT 1"⟩]⟩)
  extract_db_name := extract_db_name

/-- Modelled from the spec: the row projection rule as the table of the spec gives it, by
column name: the value of the named column for `(db_name, view_record)`; `none` for a name
that is not in the table. -/
def projection_by_name (extract_db_name : String → String) (db_name : String)
    (view_record : TTableStatus) (column : String) : Option String :=
  if column = "TABLE_CATALOG" then some "def"
  else if column = "TABLE_SCHEMA" then some (extract_db_name db_name)
  else if column = "TABLE_NAME" then some view_record.name
  else if column = "VIEW_DEFINITION" then some view_record.ddl_sql
  else if column = "CHECK_OPTION" then some "NONE"
  else if column = "IS_UPDATABLE" then some "NO"
  else if column = "DEFINER" then some ""
  else if column = "SECURITY_TYPE" then some ""
  else if column = "CHARACTER_SET_CLIENT" then some "utf8"
  else if column = "COLLATION_CONNECTION" then some "utf8_general_ci"
  else none

/-- The empty chunk laid out by a declared schema: the i-th declared column (1-based) is
the column registered under slot id i. -/
def schema_chunk (columns : List ColumnDesc) : Chunk :=
  ⟨columns.enum.map fun p => ((p.1 : Int) + 1, [])⟩

/-- A request with an explicit identity as well as a user name and a user ip, and both
patterns. -/
def identified_param : SchemaScannerParam :=
  ⟨some "db%", some "v%", some "alice", some "10.0.0.1", some ⟨"root", "%"⟩⟩

/-- A catalog with the Database List `["e1", "e2", "s1", "s2"]` in which only `s1` holds a
view: the view lists of `e1` and `e2` are empty. -/
def sparse_helper : SchemaHelper where
  get_db_names := fun _ _ _ => (Status.OK, ⟨["e1", "e2", "s1", "s2"]⟩)
  list_table_status := fun _ params _ =>
    (Status.OK, ⟨if params.db = some "s1" then [⟨"v1", "SELECT 1"⟩] else []⟩)
  extract_db_name := extract_db_name

/-- The states a scanner freshly started at catalog history `trace0` reaches through
`get_next` calls that return OK: `Reachable`, with the history the scanner was started at
kept as a parameter. -/
inductive ReachableFrom (helper : SchemaHelper) (param : SchemaScannerParam)
    (dbs : List String) (trace0 : List CatalogCall) :
    SchemaViewsScanner → List CatalogCall → Prop where
  | start : ReachableFrom helper param dbs trace0 (fresh param dbs) trace0
  | next (self : SchemaViewsScanner) (trace : List CatalogCall) (chunk : Chunk) (eos : Bool)
      (r : GetNextResult) (hreach : ReachableFrom helper param dbs trace0 self trace)
      (hcall : get_next helper self (some chunk) (some eos) trace = some r)
      (hok : r.status = Status.OK) :
      ReachableFrom helper param dbs trace0 r.scanner r.trace

/-- The scanner of the spec's first scenario right after the view list of `s1` has been
fetched: `_db_index = 1`, `_table_index = 0`, one unread record. -/
def scenario_fetched : SchemaViewsScanner :=
  ⟨true, scenario_param, 1, 0, ⟨["s1", "s2"]⟩, ⟨[⟨"v1", "SELECT 1"⟩]⟩⟩

/-- A chunk whose slot map has, besides the slot ids 2 and 3, the unknown slot ids 0, 11
and -7; the column of slot id 11 already holds a value. -/
def unknown_slots_chunk : Chunk :=
  ⟨[(0, []), (2, []), (3, []), (11, ["kept"]), (-7, [])]⟩

/-- A catalog with the Database List `["s1", "s2"]`, one view `w` in `s1` and one view `x`
in `s2`. -/
def pair_helper : SchemaHelper where
  get_db_names := fun _ _ _ => (Status.OK, ⟨["s1", "s2"]⟩)
  list_table_status := fun _ params _ =>
    (Status.OK,
      ⟨if params.db = some "s1" then [⟨"w", "SELECT 1"⟩] else [⟨"x", "SELECT 2"⟩]⟩)
  extract_db_name := extract_db_name

/-- The result of the first `get_next` call on the fresh scanner with `pair_helper`: the
row of view `w` of `s1`; the scanner is left with `_db_index = 1`, `_table_index = 1` and
the View List `[w]`. -/
def pair_first_result : GetNextResult :=
  ⟨Status.OK, ⟨true, scenario_param, 1, 1, ⟨["s1", "s2"]⟩, ⟨[⟨"w", "SELECT 1"⟩]⟩⟩,
    some ⟨[(1, ["def"]), (2, ["s1"]), (3, ["w"]), (4, ["SELECT 1"]), (5, ["NONE"]),
      (6, ["NO"]), (7, [""]), (8, [""]), (9, ["utf8"]), (10, ["utf8_general_ci"])]⟩,
    some false,
    [CatalogCall.list_table_status (get_new_table_params scenario_param "s1")]⟩

/-- The result of the second `get_next` call with `pair_helper`, on an empty chunk: the
call fetches the view list of `s2` and produces the row of view `x`; the scanner is left
with `_db_index = 2`, `_table_index = 1` and the View List `[x]`. -/
def pair_second_result : GetNextResult :=
  ⟨Status.OK, ⟨true, scenario_param, 2, 1, ⟨["s1", "s2"]⟩, ⟨[⟨"x", "SELECT 2"⟩]⟩⟩,
    some ⟨[(1, ["def"]), (2, ["s2"]), (3, ["x"]), (4, ["SELECT 2"]), (5, ["NONE"]),
      (6, ["NO"]), (7, [""]), (8, [""]), (9, ["utf8"]), (10, ["utf8_general_ci"])]⟩,
    some false,
    [CatalogCall.list_table_status (get_new_table_params scenario_param "s1"),
      CatalogCall.list_table_status (get_new_table_params scenario_param "s2")]⟩

/-- The result of the second `get_next` call of the spec's first scenario, on an empty
chunk: the view list of `s2` is fetched, it is empty, and the call reports `eos`. -/
def scenario_second_result : GetNextResult :=
  ⟨Status.OK, ⟨true, scenario_param, 2, 0, ⟨["s1", "s2"]⟩, ⟨[]⟩⟩, some scenario_chunk,
    some true,
    [CatalogCall.list_table_status (get_new_table_params scenario_param "s1"),
      CatalogCall.list_table_status (get_new_table_params scenario_param "s2")]⟩

/-- The view lists of a catalog with two views `v1`, `v2` in `s1` and one view `v1` in
`s2`. -/
def two_views (db : String) : List TTableStatus :=
  if db = "s1" then [⟨"v1", "SELECT 1"⟩, ⟨"v2", "SELECT 2"⟩] else [⟨"v1", "SELECT 3"⟩]

/-- The catalog with the Database List `["s1", "s2"]` that answers `two_views`. -/
def two_views_helper : SchemaHelper where
  get_db_names := fun _ _ _ => (Status.OK, ⟨["s1", "s2"]⟩)
  list_table_status := fun _ params _ =>
    (Status.OK,
      ⟨if params.db = some "s1" then [⟨"v1", "SELECT 1"⟩, ⟨"v2", "SELECT 2"⟩]
        else [⟨"v1", "SELECT 3"⟩]⟩)
  extract_db_name := extract_db_name

/-- The result of the first `get_next` call of the spec's first scenario when the request
is `identified_param`: the row of `v1`, after one view-list request for `s1`. -/
def identified_first_result : GetNextResult :=
  ⟨Status.OK, ⟨true, identified_param, 1, 1, ⟨["s1", "s2"]⟩, ⟨[⟨"v1", "SELECT 1"⟩]⟩⟩,
    some ⟨[(1, ["def"]), (2, ["s1"]), (3, ["v1"]), (4, ["SELECT 1"]), (5, ["NONE"]),
      (6, ["NO"]), (7, [""]), (8, [""]), (9, ["utf8"]), (10, ["utf8_general_ci"])]⟩,
    some false,
    [CatalogCall.list_table_status (get_new_table_params identified_param "s1")]⟩

/-- The result of the second `get_next` call of the same run, on an empty chunk: the view
list of `s2` is fetched, it is empty, and the call reports `eos`. -/
def identified_second_result : GetNextResult :=
  ⟨Status.OK, ⟨true, identified_param, 2, 0, ⟨["s1", "s2"]⟩, ⟨[]⟩⟩, some scenario_chunk,
    some true,
    [CatalogCall.list_table_status (get_new_table_params identified_param "s1"),
      CatalogCall.list_table_status (get_new_table_params identified_param "s2")]⟩

/-! # Properties -/

theorem Status.ok_iff (status : Status) : status.ok = true ↔ status = Status.OK := by
  cases status <;> simp [Status.ok]

/-! ## The chunk and `fill_chunk` -/

theorem appendToSlot_eq (cols : List (Int × List String)) (k : Int) (v : String)
    (hn : (cols.map Prod.fst).Nodup) (hk : k ∈ cols.map Prod.fst) :
    appendToSlot cols k v
      = some (cols.map fun e => if e.1 = k then (e.1, e.2 ++ [v]) else e) := by
  induction cols with
  | nil => simp at hk
  | cons e rest ih =>
    obtain ⟨k0, col⟩ := e
    simp only [List.map_cons, List.nodup_cons] at hn
    simp only [appendToSlot]
    by_cases h0 : k0 = k
    · subst h0
      simp only [if_true, List.map_cons]
      congr 2
      symm
      have : ∀ e ∈ rest, ¬ e.1 = k0 := by
        intro e he heq
        apply hn.1
        rw [← heq]
        exact List.mem_map_of_mem _ he
      calc rest.map (fun e => if e.1 = k0 then (e.1, e.2 ++ [v]) else e)
          = rest.map (fun e => e) := by
            apply List.map_congr_left
            intro e he
            simp [this e he]
        _ = rest := by simp
    · simp only [h0, if_false, List.map_cons]
      have hk' : k ∈ rest.map Prod.fst := by
        simp only [List.map_cons, List.mem_cons] at hk
        rcases hk with hk | hk
        · exact absurd hk.symm h0
        · exact hk
      rw [ih hn.2 hk']
      simp

theorem fill_slot_eq (helper : SchemaHelper) (self : SchemaViewsScanner)
    (tbl_status : TTableStatus) (cols : List (Int × List String)) (k : Int) (db : String)
    (hn : (cols.map Prod.fst).Nodup) (hk : k ∈ cols.map Prod.fst)
    (hdb : k = 2 → self._db_index ≠ 0 ∧ self._db_result.dbs[self._db_index - 1]? = some db) :
    fill_slot helper self tbl_status ⟨cols⟩ k
      = some ⟨cols.map fun e =>
          if e.1 = k then
            (e.1, e.2 ++ (projection_rule helper.extract_db_name db tbl_status k).toList)
          else e⟩ := by
  unfold fill_slot
  split
  case h_2 =>
    obtain ⟨h0, h1⟩ := hdb rfl
    simp [h0, h1, Chunk.fill_column_with_slot, appendToSlot_eq _ _ _ hn hk, projection_rule]
  case h_11 h1 h2 h3 h4 h5 h6 h7 h8 h9 h10 =>
    have hnone : projection_rule helper.extract_db_name db tbl_status k = none := by
      unfold projection_rule
      simp [show k ≠ 1 from h1, show k ≠ 2 from h2, show k ≠ 3 from h3, show k ≠ 4 from h4,
        show k ≠ 5 from h5, show k ≠ 6 from h6, show k ≠ 7 from h7, show k ≠ 8 from h8,
        show k ≠ 9 from h9, show k ≠ 10 from h10]
    simp [hnone]
  all_goals
    simp [Chunk.fill_column_with_slot, appendToSlot_eq _ _ _ hn hk, projection_rule]

theorem fill_slots_eq (helper : SchemaHelper) (self : SchemaViewsScanner)
    (tbl_status : TTableStatus) (db : String) (ks : List Int) :
    ∀ cols : List (Int × List String), (cols.map Prod.fst).Nodup → ks.Nodup →
      (∀ k ∈ ks, k ∈ cols.map Prod.fst) →
      ((2 : Int) ∈ ks →
        self._db_index ≠ 0 ∧ self._db_result.dbs[self._db_index - 1]? = some db) →
      ks.foldlM (fun c k => fill_slot helper self tbl_status c k) (Chunk.mk cols)
        = some ⟨cols.map fun e =>
            if e.1 ∈ ks then
              (e.1, e.2 ++ (projection_rule helper.extract_db_name db tbl_status e.1).toList)
            else e⟩ := by
  induction ks with
  | nil => intro cols _ _ _ _; simp
  | cons k ks ih =>
    intro cols hn hks hmem hdb
    rw [List.nodup_cons] at hks
    rw [List.foldlM_cons,
      fill_slot_eq helper self tbl_status cols k db hn (hmem k (List.mem_cons_self _ _))
        (fun h2 => hdb (h2 ▸ List.mem_cons_self _ _))]
    have hfst : ∀ (g : Int × List String → List String) ,
        (cols.map fun e => if e.1 = k then (e.1, g e) else e).map Prod.fst
          = cols.map Prod.fst := by
      intro g
      rw [List.map_map]
      apply List.map_congr_left
      intro e _
      by_cases h : e.1 = k <;> simp [h]
    simp only [Option.some_bind, Option.bind_eq_bind]
    rw [ih _ (by rw [hfst]; exact hn) hks.2
      (by rw [hfst]; exact fun k' hk' => hmem k' (List.mem_cons_of_mem _ hk'))
      (fun h2 => hdb (List.mem_cons_of_mem _ h2))]
    congr 2
    rw [List.map_map]
    apply List.map_congr_left
    intro e _
    by_cases h : e.1 = k
    · have hnot : k ∉ ks := hks.1
      simp [h, hnot]
    · have hne : ¬ k = e.1 := fun h' => h h'.symm
      by_cases h' : e.1 ∈ ks <;> simp [h, h', hne]

theorem fill_chunk_eq (helper : SchemaHelper) (self : SchemaViewsScanner) (chunk : Chunk)
    (tbl_status : TTableStatus) (db : String) (hwf : chunk.WF)
    (htbl : self._table_result.tables[self._table_index]? = some tbl_status)
    (hdb : (2 : Int) ∈ chunk.columns.map Prod.fst →
      self._db_index ≠ 0 ∧ self._db_result.dbs[self._db_index - 1]? = some db) :
    fill_chunk helper self chunk
      = some (Status.OK, { self with _table_index := self._table_index + 1 },
          chunk.with_row (projection_rule helper.extract_db_name db tbl_status)) := by
  have hkeys : chunk.get_slot_id_to_index_map.map Prod.fst = chunk.columns.map Prod.fst := by
    unfold Chunk.get_slot_id_to_index_map
    rw [List.map_map]
    have : (Prod.fst ∘ fun p : Nat × Int × List String => (p.2.1, p.1))
        = Prod.fst ∘ Prod.snd := rfl
    rw [this, ← List.map_map, List.enum_map_snd]
  have hfold : chunk.get_slot_id_to_index_map.foldlM
        (fun c entry => fill_slot helper self tbl_status c entry.1) chunk
      = (chunk.get_slot_id_to_index_map.map Prod.fst).foldlM
        (fun c k => fill_slot helper self tbl_status c k) chunk := by
    rw [List.foldlM_map]
  unfold fill_chunk
  rw [htbl]
  simp only [hfold, hkeys]
  have := fill_slots_eq helper self tbl_status db (chunk.columns.map Prod.fst) chunk.columns
    hwf hwf (fun k hk => hk) hdb
  rw [this]
  simp only [Chunk.with_row]
  congr 4
  apply List.map_congr_left
  intro e he
  simp [List.mem_map_of_mem Prod.fst he]

/-! ## `get_new_table` and the `while` loop -/

theorem get_new_table_eq (helper : SchemaHelper) (self : SchemaViewsScanner)
    (trace : List CatalogCall) (db : String)
    (hdb : self._db_result.dbs[self._db_index]? = some db) :
    get_new_table helper self trace
      = some
        (if (helper.list_table_status trace (get_new_table_params self._param db)
              self._table_result).1.ok then
          ⟨Status.OK,
            { self with
              _db_index := self._db_index + 1
              _table_result :=
                (helper.list_table_status trace (get_new_table_params self._param db)
                  self._table_result).2
              _table_index := 0 },
            trace ++ [CatalogCall.list_table_status (get_new_table_params self._param db)]⟩
        else
          ⟨(helper.list_table_status trace (get_new_table_params self._param db)
              self._table_result).1,
            { self with
              _db_index := self._db_index + 1
              _table_result :=
                (helper.list_table_status trace (get_new_table_params self._param db)
                  self._table_result).2 },
            trace ++ [CatalogCall.list_table_status (get_new_table_params self._param db)]⟩) := by
  unfold get_new_table
  rw [hdb]
  dsimp only
  split <;> simp_all

theorem get_new_table_some (helper : SchemaHelper) (self : SchemaViewsScanner)
    (trace : List CatalogCall) (r : CallResult) (h : get_new_table helper self trace = some r) :
    ∃ db, self._db_result.dbs[self._db_index]? = some db := by
  unfold get_new_table at h
  split at h
  · simp at h
  · rename_i db hdb
    exact ⟨db, hdb⟩

theorem get_new_table_db (helper : SchemaHelper) (self : SchemaViewsScanner)
    (trace : List CatalogCall) (r : CallResult) (h : get_new_table helper self trace = some r) :
    r.scanner._db_index = self._db_index + 1 ∧ r.scanner._db_result = self._db_result ∧
      r.scanner._is_init = self._is_init ∧ r.scanner._param = self._param := by
  obtain ⟨db, hdb⟩ := get_new_table_some helper self trace r h
  rw [get_new_table_eq helper self trace db hdb] at h
  simp only [Option.some.injEq] at h
  subst h
  split <;> simp

theorem get_next_while_eq_fuel (helper : SchemaHelper) (fuel : Nat) :
    ∀ (self : SchemaViewsScanner) (trace : List CatalogCall),
      self._db_result.dbs.length - self._db_index ≤ fuel →
      get_next_while helper self trace = get_next_while_fuel helper fuel self trace := by
  induction fuel with
  | zero =>
    intro self trace h
    rw [get_next_while, get_next_while_fuel]
    split
    · split
      · omega
      · rfl
    · rfl
  | succ n ih =>
    intro self trace h
    rw [get_next_while, get_next_while_fuel]
    split
    · split
      · split
        · simp [*]
        · rename_i r hr
          simp only [hr]
          have hd := get_new_table_db helper self trace r hr
          split
          · rfl
          · apply ih
            rw [hd.1, hd.2.1]; omega
      · rfl
    · rfl

theorem get_next_while_fuel_run (helper : SchemaHelper) (fuel : Nat) :
    ∀ (self : SchemaViewsScanner) (trace : List CatalogCall) (exit : WhileExit)
      (self' : SchemaViewsScanner) (trace' : List CatalogCall),
      get_next_while_fuel helper fuel self trace = some (exit, self', trace') →
      WhileRun helper self trace exit self' trace' := by
  induction fuel with
  | zero =>
    intro self trace exit self' trace' h
    rw [get_next_while_fuel] at h
    split at h
    · rename_i hge
      split at h
      · simp at h
      · rename_i hdb
        simp only [Option.some.injEq, Prod.mk.injEq] at h
        obtain ⟨h1, h2, h3⟩ := h
        subst h1 h2 h3
        exact WhileRun.eos self trace hge hdb
    · rename_i hlt
      simp only [Option.some.injEq, Prod.mk.injEq] at h
      obtain ⟨h1, h2, h3⟩ := h
      subst h1 h2 h3
      exact WhileRun.done self trace (by omega)
  | succ n ih =>
    intro self trace exit self' trace' h
    rw [get_next_while_fuel] at h
    split at h
    · rename_i hge
      split at h
      · rename_i hdb
        split at h
        · simp at h
        · rename_i r hr
          by_cases hok : r.status.ok = true
          · simp only [hok, Bool.not_true, Bool.false_eq_true, if_false] at h
            exact WhileRun.step self trace r exit self' trace' hge hdb hr hok
              (ih _ _ _ _ _ h)
          · have hok' : r.status.ok = false := by simpa using hok
            simp only [hok', Bool.not_false, if_true, Option.some.injEq, Prod.mk.injEq] at h
            obtain ⟨h1, h2, h3⟩ := h
            subst h1 h2 h3
            exact WhileRun.error self trace r hge hdb hr hok'
      · rename_i hdb
        simp only [Option.some.injEq, Prod.mk.injEq] at h
        obtain ⟨h1, h2, h3⟩ := h
        subst h1 h2 h3
        exact WhileRun.eos self trace hge hdb
    · rename_i hlt
      simp only [Option.some.injEq, Prod.mk.injEq] at h
      obtain ⟨h1, h2, h3⟩ := h
      subst h1 h2 h3
      exact WhileRun.done self trace (by omega)

theorem get_next_while_run (helper : SchemaHelper) (self : SchemaViewsScanner)
    (trace : List CatalogCall) (exit : WhileExit) (self' : SchemaViewsScanner)
    (trace' : List CatalogCall)
    (h : get_next_while helper self trace = some (exit, self', trace')) :
    WhileRun helper self trace exit self' trace' := by
  rw [get_next_while_eq_fuel helper _ self trace (le_refl _)] at h
  exact get_next_while_fuel_run helper _ _ _ _ _ _ h

theorem WhileRun.get_next_while_eq {helper : SchemaHelper} {self : SchemaViewsScanner}
    {trace : List CatalogCall} {exit : WhileExit} {self' : SchemaViewsScanner}
    {trace' : List CatalogCall} (h : WhileRun helper self trace exit self' trace') :
    starrocks.get_next_while helper self trace = some (exit, self', trace') := by
  induction h with
  | done self trace hlt =>
    rw [starrocks.get_next_while]
    simp [Nat.not_le.mpr hlt]
  | eos self trace hge hdb =>
    rw [starrocks.get_next_while]
    simp only [hge, if_true, hdb, if_false]
  | error self trace r hge hdb hr hok =>
    rw [starrocks.get_next_while]
    simp only [hge, if_true, hdb]
    split
    · simp_all
    · rename_i r' hr'
      rw [hr] at hr'
      simp only [Option.some.injEq] at hr'
      subst hr'
      simp [hok]
  | step self trace r exit self' trace' hge hdb hr hok _ ih =>
    rw [starrocks.get_next_while]
    simp only [hge, if_true, hdb]
    split
    · simp_all
    · rename_i r' hr'
      rw [hr] at hr'
      simp only [Option.some.injEq] at hr'
      subst hr'
      simp [hok, ih]

/-- The loop always returns when every index it reads is in range: it is total. -/
theorem get_next_while_isSome (helper : SchemaHelper) (fuel : Nat) :
    ∀ (self : SchemaViewsScanner) (trace : List CatalogCall),
      self._db_result.dbs.length - self._db_index ≤ fuel →
      (get_next_while helper self trace).isSome = true := by
  induction fuel with
  | zero =>
    intro self trace h
    rw [get_next_while]
    split
    · split
      · omega
      · rfl
    · rfl
  | succ n ih =>
    intro self trace h
    rw [get_next_while]
    split
    · split
      · rename_i hdb
        have hget : self._db_result.dbs[self._db_index]?
            = some (self._db_result.dbs[self._db_index]) := List.getElem?_eq_getElem hdb
        split
        · rename_i hnone
          rw [get_new_table_eq helper self trace _ hget] at hnone
          simp at hnone
        · rename_i r hr
          have hd := get_new_table_db helper self trace r hr
          split
          · rfl
          · apply ih
            rw [hd.1, hd.2.1]; omega
      · rfl
    · rfl

theorem WhileRun.frame {helper : SchemaHelper} {self : SchemaViewsScanner}
    {trace : List CatalogCall} {exit : WhileExit} {self' : SchemaViewsScanner}
    {trace' : List CatalogCall} (h : WhileRun helper self trace exit self' trace') :
    self'._is_init = self._is_init ∧ self'._param = self._param ∧
      self'._db_result = self._db_result ∧ self._db_index ≤ self'._db_index := by
  induction h with
  | done self trace hlt => simp
  | eos self trace hge hdb => simp
  | error self trace r hge hdb hr hok =>
    have hd := get_new_table_db helper self trace r hr
    exact ⟨hd.2.2.1, hd.2.2.2, hd.2.1, by omega⟩
  | step self trace r exit self' trace' hge hdb hr hok _ ih =>
    have hd := get_new_table_db helper self trace r hr
    exact ⟨ih.1.trans hd.2.2.1, ih.2.1.trans hd.2.2.2, ih.2.2.1.trans hd.2.1, by omega⟩

theorem WhileRun.exit_state {helper : SchemaHelper} {self : SchemaViewsScanner}
    {trace : List CatalogCall} {exit : WhileExit} {self' : SchemaViewsScanner}
    {trace' : List CatalogCall} (h : WhileRun helper self trace exit self' trace') :
    (exit = WhileExit.done → self'._table_index < self'._table_result.tables.length) ∧
    (exit = WhileExit.eos →
      self'._table_result.tables.length ≤ self'._table_index ∧
      self'._db_result.dbs.length ≤ self'._db_index) ∧
    (∀ status, exit = WhileExit.error status → status.ok = false) := by
  induction h with
  | done self trace hlt => simp [hlt]
  | eos self trace hge hdb =>
    simp only [reduceCtorEq, false_implies, true_implies, true_and, implies_true, and_true]
    exact ⟨hge, by omega⟩
  | error self trace r hge hdb hr hok =>
    simp only [reduceCtorEq, false_implies, true_and, WhileExit.error.injEq]
    intro status hs
    rw [← hs]; exact hok
  | step self trace r exit self' trace' hge hdb hr hok _ ih => exact ih

/-- `get_next` behind its two guards, in terms of the loop. -/
theorem get_next_eq (helper : SchemaHelper) (self : SchemaViewsScanner) (chunk : Chunk)
    (eos : Bool) (trace : List CatalogCall) (hinit : self._is_init = true) :
    get_next helper self (some chunk) (some eos) trace
      = match get_next_while helper self trace with
        | none => none
        | some (WhileExit.error status, self', trace') =>
          some ⟨status, self', some chunk, some eos, trace'⟩
        | some (WhileExit.eos, self', trace') =>
          some ⟨Status.OK, self', some chunk, some true, trace'⟩
        | some (WhileExit.done, self', trace') =>
          match fill_chunk helper self' chunk with
          | none => none
          | some (status, self'', c) => some ⟨status, self'', some c, some false, trace'⟩ := by
  unfold get_next
  simp only [hinit, Bool.not_true, Bool.false_eq_true, if_false]

/-! ## Concrete runs -/

theorem get_next_while_eq_fuel_self (helper : SchemaHelper) (self : SchemaViewsScanner)
    (trace : List CatalogCall) :
    get_next_while helper self trace
      = get_next_while_fuel helper (self._db_result.dbs.length - self._db_index) self trace :=
  get_next_while_eq_fuel helper _ self trace (le_refl _)

theorem scenario_first_call :
    get_next scenario_helper (fresh scenario_param ["s1", "s2"]) (some scenario_chunk)
      (some false) [] = some scenario_first_result := by
  rw [get_next_eq _ _ _ _ _ rfl, get_next_while_eq_fuel_self]
  decide

theorem scenario_second_call :
    get_next scenario_helper scenario_first_result.scanner (some scenario_chunk) (some false)
      scenario_first_result.trace = some scenario_second_result := by
  rw [get_next_eq _ _ _ _ _ rfl, get_next_while_eq_fuel_self]
  decide

theorem pair_first_call :
    get_next pair_helper (fresh scenario_param ["s1", "s2"]) (some scenario_chunk)
      (some false) [] = some pair_first_result := by
  rw [get_next_eq _ _ _ _ _ rfl, get_next_while_eq_fuel_self]
  decide

theorem pair_second_call :
    get_next pair_helper pair_first_result.scanner (some scenario_chunk) (some false)
      pair_first_result.trace = some pair_second_result := by
  rw [get_next_eq _ _ _ _ _ rfl, get_next_while_eq_fuel_self]
  decide

theorem two_views_scan :
    scan two_views_helper 4 (fresh scenario_param ["s1", "s2"]) scenario_chunk []
      = some ⟨3, true, Status.OK,
          ⟨true, scenario_param, 2, 1, ⟨["s1", "s2"]⟩, ⟨[⟨"v1", "SELECT 3"⟩]⟩⟩,
          ⟨[(1, ["def", "def", "def"]), (2, ["s1", "s1", "s2"]), (3, ["v1", "v2", "v1"]),
            (4, ["SELECT 1", "SELECT 2", "SELECT 3"]), (5, ["NONE", "NONE", "NONE"]),
            (6, ["NO", "NO", "NO"]), (7, ["", "", ""]), (8, ["", "", ""]),
            (9, ["utf8", "utf8", "utf8"]),
            (10, ["utf8_general_ci", "utf8_general_ci", "utf8_general_ci"])]⟩,
          [CatalogCall.list_table_status (get_new_table_params scenario_param "s1"),
            CatalogCall.list_table_status (get_new_table_params scenario_param "s2")]⟩ := by
  simp only [scan, get_next, get_next_while_eq_fuel_self]
  decide

theorem identified_first_call :
    get_next scenario_helper (fresh identified_param ["s1", "s2"]) (some scenario_chunk)
      (some false) [] = some identified_first_result := by
  rw [get_next_eq _ _ _ _ _ rfl, get_next_while_eq_fuel_self]
  decide

theorem identified_second_call :
    get_next scenario_helper identified_first_result.scanner (some scenario_chunk)
      (some false) identified_first_result.trace = some identified_second_result := by
  rw [get_next_eq _ _ _ _ _ rfl, get_next_while_eq_fuel_self]
  decide

theorem two_views_helper_views (tr : List CatalogCall) (db : String)
    (old : TListTableStatusResult) (_hdb : db ∈ ["s1", "s2"]) :
    two_views_helper.list_table_status tr (get_new_table_params scenario_param db) old
      = (Status.OK, ⟨two_views db⟩) := by
  simp [two_views_helper, two_views, get_new_table_params, scenario_param]

theorem scenario_first_reachable :
    Reachable scenario_helper scenario_param ["s1", "s2"] scenario_first_result.scanner
      scenario_first_result.trace :=
  Reachable.next _ _ scenario_chunk false scenario_first_result (Reachable.start [])
    scenario_first_call rfl

theorem pair_first_reachable :
    Reachable pair_helper scenario_param ["s1", "s2"] pair_first_result.scanner
      pair_first_result.trace :=
  Reachable.next _ _ scenario_chunk false pair_first_result (Reachable.start [])
    pair_first_call rfl

/-- C5: on an initialised scanner with an empty Database List, fresh cursors and an empty
View List, the first `get_next` call returns OK with `eos = true`, leaves the chunk as it
was (no row) and issues no catalog call (the call history is unchanged). -/
theorem get_next_empty_database_list (helper : SchemaHelper) (param : SchemaScannerParam)
    (chunk : Chunk) (eos : Bool) (trace : List CatalogCall) :
    get_next helper (fresh param []) (some chunk) (some eos) trace
      = some ⟨Status.OK, fresh param [], some chunk, some true, trace⟩ := by
  rw [get_next_eq helper _ chunk eos trace rfl,
    WhileRun.get_next_while_eq (WhileRun.eos (fresh param []) trace (by simp [fresh])
      (by simp [fresh]))]

/-- C6: exhaustion is terminal and idempotent.  Once a `get_next` call has returned OK with
`eos = true`, a later `get_next` call with non-null handles (whatever the chunk, the
initial `eos`, the catalog and its history) returns OK with `eos = true`, leaves the chunk
as it was, issues no catalog call and leaves the whole scanner object unchanged, so the
same holds for every call after it. -/
theorem get_next_after_eos (helper : SchemaHelper) (self : SchemaViewsScanner)
    (chunk : Option Chunk) (eos : Option Bool) (trace : List CatalogCall) (r : GetNextResult)
    (hcall : get_next helper self chunk eos trace = some r)
    (hok : r.status = Status.OK) (heos : r.eos = some true)
    (helper' : SchemaHelper) (chunk' : Chunk) (eos' : Bool) (trace' : List CatalogCall) :
    get_next helper' r.scanner (some chunk') (some eos') trace'
      = some ⟨Status.OK, r.scanner, some chunk', some true, trace'⟩ := by
  have hstate : r.scanner._is_init = true ∧
      r.scanner._table_result.tables.length ≤ r.scanner._table_index ∧
      r.scanner._db_result.dbs.length ≤ r.scanner._db_index := by
    unfold get_next at hcall
    split at hcall
    · simp only [Option.some.injEq] at hcall
      subst hcall
      simp at hok
    · rename_i hinit
      simp only [Bool.not_eq_true, Bool.not_eq_false_eq_eq_true, Bool.not_eq_true'] at hinit
      split at hcall
      · split at hcall
        · simp at hcall
        · simp only [Option.some.injEq] at hcall
          rename_i status s1 t1 hrun
          have hx := (get_next_while_run helper _ _ _ _ _ hrun).exit_state.2.2 status rfl
          subst hcall
          simp only at hok
          rw [hok] at hx
          simp [Status.ok] at hx
        · simp only [Option.some.injEq] at hcall
          rename_i s1 t1 hrun
          have hw := get_next_while_run helper _ _ _ _ _ hrun
          have hx := hw.exit_state.2.1 rfl
          have hf := hw.frame
          subst hcall
          exact ⟨by simp only; rw [hf.1]; simpa using hinit, hx⟩
        · split at hcall
          · simp at hcall
          · simp only [Option.some.injEq] at hcall
            subst hcall
            simp at heos
      · simp only [Option.some.injEq] at hcall
        subst hcall
        simp at hok
  rw [get_next_eq helper' _ chunk' eos' trace' hstate.1,
    WhileRun.get_next_while_eq (WhileRun.eos r.scanner trace' hstate.2.1 (by omega))]

/-- The witness of C6: in the spec's scenario with an empty Database List, the first call
reports `eos`, and so does the next one, touching nothing. -/
theorem get_next_after_eos_witness :
    get_next scenario_helper (fresh scenario_param []) (some scenario_chunk) (some false) []
        = some ⟨Status.OK, fresh scenario_param [], some scenario_chunk, some true, []⟩ ∧
      get_next scenario_helper (fresh scenario_param []) (some scenario_chunk) (some false)
          [CatalogCall.get_db_names (start_db_params scenario_param)]
        = some ⟨Status.OK, fresh scenario_param [], some scenario_chunk, some true,
            [CatalogCall.get_db_names (start_db_params scenario_param)]⟩ :=
  have hcall : get_next scenario_helper (fresh scenario_param []) (some scenario_chunk)
      (some false) []
        = some ⟨Status.OK, fresh scenario_param [], some scenario_chunk, some true, []⟩ := by
    rw [get_next_eq _ _ _ _ _ rfl, get_next_while_eq_fuel _ 0 _ _ (by decide)]
    rfl
  ⟨hcall, get_next_after_eos scenario_helper (fresh scenario_param []) (some scenario_chunk)
    (some false) [] _ hcall rfl rfl scenario_helper scenario_chunk false _⟩

/-! ## `start` and the guards -/

/-- C10: precondition failures are rejected before any effect.  On a scanner with `_is_init`
false, `start` and `get_next` (whatever the handles, null or not: the not-initialised check
comes first) return the InternalError "used before initialized"; on an initialised scanner
`get_next` with a null chunk handle or a null `eos` handle returns the InternalError
"input pointer is nullptr."  In each case the scanner object (both cursors, Database List,
View List), the chunk, the `eos` flag and the catalog call history are exactly as before. -/
theorem precondition_failures_have_no_effect (helper : SchemaHelper)
    (init_schema_scanner_state : Status) (self : SchemaViewsScanner) (chunk : Option Chunk)
    (eos : Option Bool) (trace : List CatalogCall) :
    start helper init_schema_scanner_state { self with _is_init := false } trace
        = ⟨Status.InternalError "used before initialized.",
            { self with _is_init := false }, trace⟩ ∧
      get_next helper { self with _is_init := false } chunk eos trace
        = some ⟨Status.InternalError "Used before initialized.",
            { self with _is_init := false }, chunk, eos, trace⟩ ∧
      get_next helper { self with _is_init := true } none eos trace
        = some ⟨Status.InternalError "input pointer is nullptr.",
            { self with _is_init := true }, none, eos, trace⟩ ∧
      get_next helper { self with _is_init := true } chunk none trace
        = some ⟨Status.InternalError "input pointer is nullptr.",
            { self with _is_init := true }, chunk, none, trace⟩ := by
  refine ⟨?_, ?_, ?_, ?_⟩
  · simp [start]
  · simp [get_next]
  · simp [get_next]
  · cases chunk <;> simp [get_next]

/-- C8: when the database-list fetch fails during `start`, `start` returns exactly the
status of that fetch after one single call (no retry); `_db_index`, `_table_index`, the
View List, `_is_init` and the request are left as they were; and a second `start` is not
rejected: it issues the database-list fetch again, with the same request, and returns
whatever that second fetch answers. -/
theorem start_fetch_failure (helper : SchemaHelper) (init_schema_scanner_state : Status)
    (self : SchemaViewsScanner) (trace : List CatalogCall)
    (hinit : self._is_init = true) (hstate : init_schema_scanner_state.ok = true)
    (hfail : (helper.get_db_names trace (start_db_params self._param) self._db_result).1.ok
      = false) :
    (start helper init_schema_scanner_state self trace).status
        = (helper.get_db_names trace (start_db_params self._param) self._db_result).1 ∧
      (start helper init_schema_scanner_state self trace).trace
        = trace ++ [CatalogCall.get_db_names (start_db_params self._param)] ∧
      (start helper init_schema_scanner_state self trace).scanner._db_index = self._db_index ∧
      (start helper init_schema_scanner_state self trace).scanner._table_index
        = self._table_index ∧
      (start helper init_schema_scanner_state self trace).scanner._table_result
        = self._table_result ∧
      (start helper init_schema_scanner_state self trace).scanner._is_init = true ∧
      (start helper init_schema_scanner_state self trace).scanner._param = self._param ∧
      ∀ (init_again : Status) (trace' : List CatalogCall), init_again.ok = true →
        (start helper init_again (start helper init_schema_scanner_state self trace).scanner
            trace').status
          = (helper.get_db_names trace' (start_db_params self._param)
              (start helper init_schema_scanner_state self trace).scanner._db_result).1 ∧
        (start helper init_again (start helper init_schema_scanner_state self trace).scanner
            trace').trace
          = trace' ++ [CatalogCall.get_db_names (start_db_params self._param)] := by
  have h1 : start helper init_schema_scanner_state self trace
      = ⟨(helper.get_db_names trace (start_db_params self._param) self._db_result).1,
          { self with
            _db_result :=
              (helper.get_db_names trace (start_db_params self._param) self._db_result).2 },
          trace ++ [CatalogCall.get_db_names (start_db_params self._param)]⟩ := by
    simp [start, hinit, hstate, hfail]
  rw [h1]
  refine ⟨rfl, rfl, rfl, rfl, rfl, hinit, rfl, ?_⟩
  intro init_again trace' hagain
  simp only [start, hinit, hagain, Bool.not_true, Bool.false_eq_true, if_false]
  split
  · exact ⟨rfl, rfl⟩
  · rename_i hok
    simp only [Bool.not_eq_true, Bool.not_eq_false_eq_eq_true, Bool.not_eq_true'] at hok
    have := (Status.ok_iff _).mp (by simpa using hok)
    exact ⟨this.symm, rfl⟩

/-- The witness of C8, the spec's scenario: the first `list_databases` call fails with an
`AuthorizationError`, `start` returns it with the cursors untouched, and the second
`start` fetches again and succeeds. -/
theorem start_fetch_failure_witness :
    ((fresh scenario_param [])._is_init = true ∧ Status.OK.ok = true ∧
      (denied_once_helper.get_db_names [] (start_db_params scenario_param) ⟨[]⟩).1.ok = false) ∧
    (start denied_once_helper Status.OK (fresh scenario_param []) []).status
      = Status.AuthorizationError "access denied" ∧
    (start denied_once_helper Status.OK
        (start denied_once_helper Status.OK (fresh scenario_param []) []).scanner
        (start denied_once_helper Status.OK (fresh scenario_param []) []).trace).status
      = Status.OK :=
  ⟨⟨rfl, rfl, rfl⟩,
    (start_fetch_failure denied_once_helper Status.OK (fresh scenario_param []) []
      rfl rfl rfl).1,
    ((start_fetch_failure denied_once_helper Status.OK (fresh scenario_param []) []
      rfl rfl rfl).2.2.2.2.2.2.2 Status.OK _ rfl).1⟩

/-- The counterexample to C9: in the spec's first scenario a second `start` after a
successful one is not rejected; it returns OK and the catalog has been asked for the
Database List twice. -/
theorem second_start_is_not_rejected :
    (start scenario_helper Status.OK (fresh scenario_param []) []).status = Status.OK ∧
    (start scenario_helper Status.OK
        (start scenario_helper Status.OK (fresh scenario_param []) []).scanner
        (start scenario_helper Status.OK (fresh scenario_param []) []).trace).status
      = Status.OK ∧
    (start scenario_helper Status.OK
        (start scenario_helper Status.OK (fresh scenario_param []) []).scanner
        (start scenario_helper Status.OK (fresh scenario_param []) []).trace).trace
      = [CatalogCall.get_db_names (start_db_params scenario_param),
          CatalogCall.get_db_names (start_db_params scenario_param)] := by
  decide

/-- C9 as amended: `start` called again after a successful `start` (the base-class state
initialisation succeeding again) is not rejected.  It issues the database-list fetch
again with the same request, returns the status of that fetch, stores its answer as the
Database List, and leaves `_db_index`, `_table_index` and the View List as they are. -/
theorem start_after_successful_start (helper : SchemaHelper) (init_first init_again : Status)
    (self : SchemaViewsScanner) (trace trace' : List CatalogCall)
    (hfirst : (start helper init_first self trace).status = Status.OK)
    (hagain : init_again.ok = true) :
    (start helper init_again (start helper init_first self trace).scanner trace').status
        = (helper.get_db_names trace' (start_db_params self._param)
            (start helper init_first self trace).scanner._db_result).1 ∧
      (start helper init_again (start helper init_first self trace).scanner trace').trace
        = trace' ++ [CatalogCall.get_db_names (start_db_params self._param)] ∧
      (start helper init_again (start helper init_first self trace).scanner
          trace').scanner._db_result
        = (helper.get_db_names trace' (start_db_params self._param)
            (start helper init_first self trace).scanner._db_result).2 ∧
      (start helper init_again (start helper init_first self trace).scanner
          trace').scanner._db_index = self._db_index ∧
      (start helper init_again (start helper init_first self trace).scanner
          trace').scanner._table_index = self._table_index ∧
      (start helper init_again (start helper init_first self trace).scanner
          trace').scanner._table_result = self._table_result := by
  have hinit : self._is_init = true := by
    by_contra hne
    simp [start, hne] at hfirst
  have hframe : (start helper init_first self trace).scanner._is_init = true ∧
      (start helper init_first self trace).scanner._param = self._param ∧
      (start helper init_first self trace).scanner._db_index = self._db_index ∧
      (start helper init_first self trace).scanner._table_index = self._table_index ∧
      (start helper init_first self trace).scanner._table_result = self._table_result := by
    simp only [start, hinit, Bool.not_true, Bool.false_eq_true, if_false]
    split
    · exact ⟨hinit, rfl, rfl, rfl, rfl⟩
    · split <;> exact ⟨rfl, rfl, rfl, rfl, rfl⟩
  obtain ⟨f1, f2, f3, f4, f5⟩ := hframe
  generalize (start helper init_first self trace).scanner = s1 at *
  simp only [start, f1, hagain, Bool.not_true, Bool.false_eq_true, if_false, f2]
  split
  · exact ⟨rfl, rfl, rfl, f3, f4, f5⟩
  · rename_i hok
    have := (Status.ok_iff _).mp (by simpa using hok)
    exact ⟨this.symm, rfl, rfl, f3, f4, f5⟩

/-- The witness of C9 as amended, in the spec's first scenario. -/
theorem start_after_successful_start_witness :
    ((start scenario_helper Status.OK (fresh scenario_param []) []).status = Status.OK ∧
      Status.OK.ok = true) ∧
    (start scenario_helper Status.OK
        (start scenario_helper Status.OK (fresh scenario_param []) []).scanner
        []).scanner._db_result = ⟨["s1", "s2"]⟩ :=
  ⟨⟨rfl, rfl⟩,
    (start_after_successful_start scenario_helper Status.OK Status.OK
      (fresh scenario_param []) [] [] rfl rfl).2.2.1⟩

/-! ## What one `get_next` call does -/

theorem projection_rule_isSome (extract : String → String) (db : String)
    (view_record : TTableStatus) (k : Int) :
    (projection_rule extract db view_record k).isSome = true ↔ 1 ≤ k ∧ k ≤ 10 := by
  constructor
  · intro h
    by_contra hne
    have h1 : k ≠ 1 := by omega
    have h2 : k ≠ 2 := by omega
    have h3 : k ≠ 3 := by omega
    have h4 : k ≠ 4 := by omega
    have h5 : k ≠ 5 := by omega
    have h6 : k ≠ 6 := by omega
    have h7 : k ≠ 7 := by omega
    have h8 : k ≠ 8 := by omega
    have h9 : k ≠ 9 := by omega
    have h10 : k ≠ 10 := by omega
    simp only [projection_rule, h1, h2, h3, h4, h5, h6, h7, h8, h9, h10, if_false,
      Option.isSome_none, Bool.false_eq_true] at h
  · intro h
    have : k = 1 ∨ k = 2 ∨ k = 3 ∨ k = 4 ∨ k = 5 ∨ k = 6 ∨ k = 7 ∨ k = 8 ∨ k = 9 ∨ k = 10 := by
      omega
    rcases this with h | h | h | h | h | h | h | h | h | h <;> subst h <;> rfl

theorem fill_chunk_fold (helper : SchemaHelper) (self : SchemaViewsScanner) (chunk : Chunk) :
    fill_chunk helper self chunk
      = match self._table_result.tables[self._table_index]? with
        | none => none
        | some tbl_status =>
          match (chunk.columns.map Prod.fst).foldlM
              (fun c k => fill_slot helper self tbl_status c k) chunk with
          | none => none
          | some chunk =>
            some (Status.OK, { self with _table_index := self._table_index + 1 }, chunk) := by
  have hkeys : chunk.get_slot_id_to_index_map.map Prod.fst = chunk.columns.map Prod.fst := by
    unfold Chunk.get_slot_id_to_index_map
    rw [List.map_map]
    have : (Prod.fst ∘ fun p : Nat × Int × List String => (p.2.1, p.1))
        = Prod.fst ∘ Prod.snd := rfl
    rw [this, ← List.map_map, List.enum_map_snd]
  unfold fill_chunk
  rw [← hkeys]
  simp only [List.foldlM_map]

theorem fill_slots_none (helper : SchemaHelper) (self : SchemaViewsScanner)
    (tbl_status : TTableStatus) (ks : List Int)
    (hbad : ¬ (self._db_index ≠ 0 ∧ ∃ db, self._db_result.dbs[self._db_index - 1]? = some db)) :
    ∀ cols : List (Int × List String), (cols.map Prod.fst).Nodup →
      (∀ k ∈ ks, k ∈ cols.map Prod.fst) → (2 : Int) ∈ ks →
      ks.foldlM (fun c k => fill_slot helper self tbl_status c k) (Chunk.mk cols) = none := by
  induction ks with
  | nil => intro cols _ _ h2; simp at h2
  | cons k ks ih =>
    intro cols hn hmem h2
    rw [List.foldlM_cons]
    by_cases hk : k = 2
    · subst hk
      have : fill_slot helper self tbl_status ⟨cols⟩ 2 = none := by
        simp only [fill_slot]
        split
        · rfl
        · rename_i h0
          split
          · rfl
          · rename_i db hdb
            exact absurd ⟨h0, db, hdb⟩ hbad
      rw [this]
      rfl
    · rw [fill_slot_eq helper self tbl_status cols k "" hn (hmem k (List.mem_cons_self _ _))
        (fun h => absurd h hk)]
      simp only [Option.some_bind, Option.bind_eq_bind]
      have hfst : (cols.map fun e =>
            if e.1 = k then
              (e.1, e.2 ++ (projection_rule helper.extract_db_name "" tbl_status k).toList)
            else e).map Prod.fst = cols.map Prod.fst := by
        rw [List.map_map]
        apply List.map_congr_left
        intro e _
        by_cases h : e.1 = k <;> simp [h]
      apply ih _ (by rw [hfst]; exact hn)
        (by rw [hfst]; exact fun k' hk' => hmem k' (List.mem_cons_of_mem _ hk'))
      rcases List.mem_cons.mp h2 with h | h
      · exact absurd h.symm hk
      · exact h

theorem fill_chunk_some (helper : SchemaHelper) (self : SchemaViewsScanner) (chunk : Chunk)
    (hwf : chunk.WF) (status : Status) (self' : SchemaViewsScanner) (chunk' : Chunk)
    (h : fill_chunk helper self chunk = some (status, self', chunk')) :
    status = Status.OK ∧ self' = { self with _table_index := self._table_index + 1 } ∧
      ∃ db tbl_status, self._table_result.tables[self._table_index]? = some tbl_status ∧
        ((2 : Int) ∈ chunk.columns.map Prod.fst →
          self._db_index ≠ 0 ∧ self._db_result.dbs[self._db_index - 1]? = some db) ∧
        chunk' = chunk.with_row (projection_rule helper.extract_db_name db tbl_status) := by
  cases htbl : self._table_result.tables[self._table_index]? with
  | none =>
    rw [fill_chunk_fold, htbl] at h
    simp at h
  | some tbl_status =>
    by_cases hgood : self._db_index ≠ 0 ∧
        ∃ db, self._db_result.dbs[self._db_index - 1]? = some db
    · obtain ⟨h0, db, hdb⟩ := hgood
      rw [fill_chunk_eq helper self chunk tbl_status db hwf htbl (fun _ => ⟨h0, hdb⟩)] at h
      simp only [Option.some.injEq, Prod.mk.injEq] at h
      exact ⟨h.1.symm, h.2.1.symm, db, tbl_status, rfl, fun _ => ⟨h0, hdb⟩, h.2.2.symm⟩
    · by_cases h2 : (2 : Int) ∈ chunk.columns.map Prod.fst
      · rw [fill_chunk_fold, htbl] at h
        simp only [fill_slots_none helper self tbl_status _ hgood chunk.columns hwf
          (fun k hk => hk) h2] at h
        simp at h
      · rw [fill_chunk_eq helper self chunk tbl_status "" hwf htbl (fun h => absurd h h2)] at h
        simp only [Option.some.injEq, Prod.mk.injEq] at h
        exact ⟨h.1.symm, h.2.1.symm, "", tbl_status, rfl, fun h => absurd h h2, h.2.2.symm⟩

theorem WhileRun.last_fetch {helper : SchemaHelper} {self : SchemaViewsScanner}
    {trace : List CatalogCall} {exit : WhileExit} {self' : SchemaViewsScanner}
    {trace' : List CatalogCall} (h : WhileRun helper self trace exit self' trace') :
    (self' = self ∧ trace' = trace ∧ ∀ status, exit ≠ WhileExit.error status) ∨
    ∃ (trace1 : List CatalogCall) (old : TListTableStatusResult) (db : String),
      self._db_index < self'._db_index ∧
      self'._db_result.dbs[self'._db_index - 1]? = some db ∧
      trace' = trace1 ++ [CatalogCall.list_table_status (get_new_table_params self._param db)] ∧
      trace.length ≤ trace1.length ∧
      self'._table_result
        = (helper.list_table_status trace1 (get_new_table_params self._param db) old).2 ∧
      (∀ status, exit = WhileExit.error status →
        status = (helper.list_table_status trace1 (get_new_table_params self._param db) old).1) ∧
      ((∀ status, exit ≠ WhileExit.error status) →
        (helper.list_table_status trace1 (get_new_table_params self._param db) old).1
          = Status.OK ∧ self'._table_index = 0) := by
  induction h with
  | done self trace hlt => exact Or.inl ⟨rfl, rfl, by simp⟩
  | eos self trace hge hdb => exact Or.inl ⟨rfl, rfl, by simp⟩
  | error self trace r hge hdb hr hok =>
    right
    have hget : self._db_result.dbs[self._db_index]?
        = some (self._db_result.dbs[self._db_index]) := List.getElem?_eq_getElem hdb
    rw [get_new_table_eq helper self trace _ hget] at hr
    simp only [Option.some.injEq] at hr
    split at hr
    · subst hr
      simp [Status.ok] at hok
    · subst hr
      refine ⟨trace, self._table_result, self._db_result.dbs[self._db_index], ?_, ?_, rfl,
        le_refl _, rfl, ?_, ?_⟩
      · simp
      · simp
      · intro status hs
        simp only [WhileExit.error.injEq] at hs
        exact hs.symm
      · intro hne
        exact absurd rfl (hne _)
  | step self trace r exit self' trace' hge hdb hr hok hrest ih =>
    right
    have hget : self._db_result.dbs[self._db_index]?
        = some (self._db_result.dbs[self._db_index]) := List.getElem?_eq_getElem hdb
    have hd := get_new_table_db helper self trace r hr
    rw [get_new_table_eq helper self trace _ hget] at hr
    simp only [Option.some.injEq] at hr
    rcases ih with ⟨h1, h2, h3⟩ | ⟨trace1, old, db, h1, h2, h3, h4, h5, h6, h7⟩
    · subst h1 h2
      split at hr
      · rename_i hans
        subst hr
        refine ⟨trace, self._table_result, self._db_result.dbs[self._db_index], ?_, ?_, rfl,
          le_refl _, rfl, ?_, ?_⟩
        · simp
        · simp
        · intro status hs
          exact absurd hs (h3 status)
        · intro _
          exact ⟨(Status.ok_iff _).mp hans, rfl⟩
      · subst hr
        simp only at hok
        simp_all
    · have hlen : r.trace.length = trace.length + 1 := by
        split at hr <;> (subst hr; simp)
      refine ⟨trace1, old, db, by omega, h2, ?_, by omega, ?_, ?_, ?_⟩
      · rw [h3, hd.2.2.2]
      · rw [h5, hd.2.2.2]
      · rw [← hd.2.2.2]; exact h6
      · rw [← hd.2.2.2]; exact h7

theorem fill_chunk_frame (helper : SchemaHelper) (self : SchemaViewsScanner) (chunk : Chunk)
    (status : Status) (self' : SchemaViewsScanner) (chunk' : Chunk)
    (h : fill_chunk helper self chunk = some (status, self', chunk')) :
    status = Status.OK ∧ self' = { self with _table_index := self._table_index + 1 } := by
  unfold fill_chunk at h
  split at h
  · simp at h
  · split at h
    · simp at h
    · simp only [Option.some.injEq, Prod.mk.injEq] at h
      exact ⟨h.1.symm, h.2.1.symm⟩

/-- Every way `get_next` can return, in terms of the loop and of `fill_chunk`. -/
theorem get_next_some (helper : SchemaHelper) (self : SchemaViewsScanner)
    (chunk : Option Chunk) (eos : Option Bool) (trace : List CatalogCall) (r : GetNextResult)
    (hcall : get_next helper self chunk eos trace = some r) :
    (r.status.ok = false ∧ r.scanner = self ∧ r.chunk = chunk ∧ r.eos = eos ∧
      r.trace = trace ∧ (self._is_init = false ∨ chunk = none ∨ eos = none)) ∨
    ∃ (c : Chunk) (e : Bool) (exit : WhileExit) (self1 : SchemaViewsScanner),
      self._is_init = true ∧ chunk = some c ∧ eos = some e ∧
      WhileRun helper self trace exit self1 r.trace ∧
      ((∃ status, exit = WhileExit.error status ∧
          r = ⟨status, self1, some c, some e, r.trace⟩) ∨
        (exit = WhileExit.eos ∧ r = ⟨Status.OK, self1, some c, some true, r.trace⟩) ∨
        (exit = WhileExit.done ∧ ∃ c2,
          fill_chunk helper self1 c
            = some (Status.OK, { self1 with _table_index := self1._table_index + 1 }, c2) ∧
          r = ⟨Status.OK, { self1 with _table_index := self1._table_index + 1 }, some c2,
            some false, r.trace⟩)) := by
  unfold get_next at hcall
  split at hcall
  · rename_i hinit
    simp only [Option.some.injEq] at hcall
    subst hcall
    left
    exact ⟨rfl, rfl, rfl, rfl, rfl, Or.inl (by simpa using hinit)⟩
  · rename_i hinit
    have hinit' : self._is_init = true := by simpa using hinit
    split at hcall
    · rename_i c e
      right
      split at hcall
      · simp at hcall
      · rename_i status s1 t1 hrun
        simp only [Option.some.injEq] at hcall
        subst hcall
        exact ⟨c, e, _, s1, hinit', rfl, rfl, get_next_while_run helper _ _ _ _ _ hrun,
          Or.inl ⟨status, rfl, rfl⟩⟩
      · rename_i s1 t1 hrun
        simp only [Option.some.injEq] at hcall
        subst hcall
        exact ⟨c, e, _, s1, hinit', rfl, rfl, get_next_while_run helper _ _ _ _ _ hrun,
          Or.inr (Or.inl ⟨rfl, rfl⟩)⟩
      · rename_i s1 t1 hrun
        split at hcall
        · simp at hcall
        · rename_i status s2 c2 hfill
          simp only [Option.some.injEq] at hcall
          subst hcall
          obtain ⟨h1, h2⟩ := fill_chunk_frame helper s1 c status s2 c2 hfill
          subst h1 h2
          exact ⟨c, e, _, s1, hinit', rfl, rfl, get_next_while_run helper _ _ _ _ _ hrun,
            Or.inr (Or.inr ⟨rfl, c2, hfill, rfl⟩)⟩
    · rename_i hnull
      simp only [Option.some.injEq] at hcall
      subst hcall
      left
      refine ⟨rfl, rfl, rfl, rfl, rfl, Or.inr ?_⟩
      cases chunk with
      | none => exact Or.inl rfl
      | some c =>
        cases eos with
        | none => exact Or.inr rfl
        | some e => exact absurd rfl (hnull c e rfl)

/-- C7 as amended: every `get_next` call that returns OK does exactly one of two things.
Either it sets `eos = false` and appends exactly one value to each column of the chunk
whose slot id is in 1..10 and nothing to the others, and leaves view_cursor one past the
record just read: one more than before the call when the call fetched nothing, and 1 when
the call fetched a new View List (which reset it to 0).  Or it sets `eos = true` and
leaves the chunk as it was.  (The chunk's slot map registers each slot id once.) -/
theorem get_next_ok_one_row_or_eos (helper : SchemaHelper) (self : SchemaViewsScanner)
    (chunk : Option Chunk) (eos : Option Bool) (trace : List CatalogCall) (r : GetNextResult)
    (hwf : ∀ c, chunk = some c → c.WF)
    (hcall : get_next helper self chunk eos trace = some r) (hok : r.status = Status.OK) :
    (r.eos = some false ∧
      (∃ (c : Chunk) (value : Int → String), chunk = some c ∧
        r.chunk = some ⟨c.columns.map fun e =>
          if 1 ≤ e.1 ∧ e.1 ≤ 10 then (e.1, e.2 ++ [value e.1]) else e⟩) ∧
      r.scanner._table_index = (if r.trace = trace then self._table_index else 0) + 1) ∨
    (r.eos = some true ∧ r.chunk = chunk) := by
  rcases get_next_some helper self chunk eos trace r hcall with
    ⟨hbad, _⟩ | ⟨c, e, exit, s1, _, hc, _, hrun, hcase⟩
  · rw [hok] at hbad
    simp [Status.ok] at hbad
  · rcases hcase with ⟨status, hexit, hr⟩ | ⟨_, hr⟩ | ⟨hexit, c2, hfill, hr⟩
    · have hx := hrun.exit_state.2.2 status hexit
      rw [hr] at hok
      simp only at hok
      rw [hok] at hx
      simp [Status.ok] at hx
    · right
      rw [hr, hc]
      exact ⟨rfl, rfl⟩
    · left
      obtain ⟨_, _, db, tbl, _, _, hc2⟩ :=
        fill_chunk_some helper s1 c (hwf c hc) _ _ _ hfill
      refine ⟨by rw [hr], ⟨c, fun k =>
        (projection_rule helper.extract_db_name db tbl k).getD "", hc, ?_⟩, ?_⟩
      · rw [hr, hc2]
        simp only [Chunk.with_row, Option.some.injEq, Chunk.mk.injEq]
        apply List.map_congr_left
        intro en _
        have hsome := projection_rule_isSome helper.extract_db_name db tbl en.1
        cases hv : projection_rule helper.extract_db_name db tbl en.1 with
        | none =>
          rw [hv] at hsome
          have : ¬ (1 ≤ en.1 ∧ en.1 ≤ 10) := fun h => by simpa using hsome.mpr h
          simp [this]
        | some v =>
          rw [hv] at hsome
          have : 1 ≤ en.1 ∧ en.1 ≤ 10 := hsome.mp rfl
          simp [this]
      · have hti : r.scanner._table_index = s1._table_index + 1 := by rw [hr]
        rw [hti]
        rcases hrun.last_fetch with ⟨h1, h2, _⟩ | ⟨trace1, _, _, _, _, h3, h4, _, _, h7⟩
        · simp [h1, h2]
        · have hne : r.trace ≠ trace := by
            intro heq
            have := congrArg List.length h3
            rw [heq] at this
            simp at this
            omega
          have h0 := (h7 (by intro status; rw [hexit]; simp)).2
          simp [hne, h0]

/-- The witness of C7 as amended: the first call of the spec's first scenario returns OK with one row. -/
theorem get_next_ok_one_row_or_eos_witness :
    (get_next scenario_helper (fresh scenario_param ["s1", "s2"]) (some scenario_chunk)
        (some false) [] = some scenario_first_result ∧
      scenario_first_result.status = Status.OK) ∧
    ((scenario_first_result.eos = some false ∧
      (∃ (c : Chunk) (value : Int → String), some scenario_chunk = some c ∧
        scenario_first_result.chunk = some ⟨c.columns.map fun e =>
          if 1 ≤ e.1 ∧ e.1 ≤ 10 then (e.1, e.2 ++ [value e.1]) else e⟩) ∧
      scenario_first_result.scanner._table_index
        = (if scenario_first_result.trace = [] then
            (fresh scenario_param ["s1", "s2"])._table_index else 0) + 1) ∨
    (scenario_first_result.eos = some true ∧
      scenario_first_result.chunk = some scenario_chunk)) :=
  have hcall : get_next scenario_helper (fresh scenario_param ["s1", "s2"])
      (some scenario_chunk) (some false) [] = some scenario_first_result := by
    rw [get_next_eq _ _ _ _ _ rfl, get_next_while_eq_fuel _ 2 _ _ (by decide)]
    decide
  ⟨⟨hcall, rfl⟩,
    get_next_ok_one_row_or_eos scenario_helper (fresh scenario_param ["s1", "s2"])
      (some scenario_chunk) (some false) [] scenario_first_result
      (fun c hc => by cases hc; decide) hcall rfl⟩

/-- The counterexample to C7: with `pair_helper` the scanner reached after the first row
has `_table_index = 1`; the next `get_next` call returns OK with `eos = false` and one
row, and `_table_index` is 1 after it as before it: the call has fetched the view list of
`s2`, which reset `_table_index` to 0, before `_table_index++`. -/
theorem fetching_call_leaves_table_index_equal :
    Reachable pair_helper scenario_param ["s1", "s2"] pair_first_result.scanner
        pair_first_result.trace ∧
      get_next pair_helper pair_first_result.scanner (some scenario_chunk) (some false)
        pair_first_result.trace = some pair_second_result ∧
      pair_second_result.status = Status.OK ∧ pair_second_result.eos = some false ∧
      pair_first_result.scanner._table_index = 1 ∧
      pair_second_result.scanner._table_index = 1 ∧
      ¬ (pair_second_result.scanner._table_index
        = pair_first_result.scanner._table_index + 1) :=
  ⟨pair_first_reachable, pair_second_call, rfl, rfl, rfl, rfl, by decide⟩

/-! ## Reachable states -/

theorem WhileRun.of_unread {helper : SchemaHelper} {self : SchemaViewsScanner}
    {trace : List CatalogCall} {exit : WhileExit} {self' : SchemaViewsScanner}
    {trace' : List CatalogCall} (h : WhileRun helper self trace exit self' trace')
    (hlt : self._table_index < self._table_result.tables.length) :
    exit = WhileExit.done ∧ self' = self ∧ trace' = trace := by
  cases h with
  | done hlt => exact ⟨rfl, rfl, rfl⟩
  | eos hge hdb => omega
  | error r hge hdb hr hok => omega
  | step r hge hdb hr hok hrest => omega

theorem WhileRun.preserves_inv {helper : SchemaHelper} {param : SchemaScannerParam} {dbs : List String}
    {self : SchemaViewsScanner} {trace : List CatalogCall} {exit : WhileExit}
    {self' : SchemaViewsScanner} {trace' : List CatalogCall}
    (h : WhileRun helper self trace exit self' trace')
    (hinv : ScannerInv helper param dbs self trace)
    (hexit : ∀ status, exit ≠ WhileExit.error status) :
    ScannerInv helper param dbs self' trace' := by
  obtain ⟨i1, i2, i3, i4, i5, i6⟩ := hinv
  obtain ⟨f1, f2, f3, f4⟩ := h.frame
  rcases h.last_fetch with ⟨h1, h2, _⟩ | ⟨trace1, old, db, h1, h2, h3, _, h5, _, h7⟩
  · subst h1 h2
    exact ⟨i1, i2, i3, i4, i5, i6⟩
  · have hlt : self'._db_index - 1 < self'._db_result.dbs.length := by
      by_contra hge
      rw [List.getElem?_eq_none (by omega)] at h2
      simp at h2
    rw [f3, i3] at hlt
    refine ⟨f1.trans i1, f2.trans i2, by rw [f3, i3], by omega, ?_, ?_⟩
    · rw [(h7 hexit).2]; omega
    · right
      exact ⟨trace1, old, db, by omega, h2, by rw [f2]; exact h3, by rw [f2]; exact h5⟩

theorem Reachable.scanner_inv {helper : SchemaHelper} {param : SchemaScannerParam} {dbs : List String}
    {self : SchemaViewsScanner} {trace : List CatalogCall}
    (h : Reachable helper param dbs self trace) : ScannerInv helper param dbs self trace := by
  induction h with
  | start trace => exact ⟨rfl, rfl, rfl, Nat.zero_le _, Nat.zero_le _, Or.inl ⟨rfl, rfl⟩⟩
  | next self trace chunk eos r hreach hcall hok ih =>
    rcases get_next_some helper self _ _ trace r hcall with
      ⟨hbad, _⟩ | ⟨c, e, exit, s1, _, _, _, hrun, hcase⟩
    · rw [hok] at hbad
      simp [Status.ok] at hbad
    · rcases hcase with ⟨status, hexit, hr⟩ | ⟨hexit, hr⟩ | ⟨hexit, c2, hfill, hr⟩
      · have hx := hrun.exit_state.2.2 status hexit
        rw [hr] at hok
        simp only at hok
        rw [hok] at hx
        simp [Status.ok] at hx
      · have := hrun.preserves_inv ih (by intro status; rw [hexit]; simp)
        have hs : r.scanner = s1 := by rw [hr]
        rw [hs]
        exact this
      · obtain ⟨j1, j2, j3, j4, j5, j6⟩ := hrun.preserves_inv ih (by intro status; rw [hexit]; simp)
        have hlt := hrun.exit_state.1 hexit
        have hs : r.scanner = { s1 with _table_index := s1._table_index + 1 } := by rw [hr]
        rw [hs]
        exact ⟨j1, j2, j3, j4, hlt, j6⟩

/-- C4 as amended: for every `get_next` call on a reachable scanner that yields a row (OK
with `eos = false`), let `self1` be the scanner `fill_chunk` is entered with: the scanner
of the call itself when its View List still had unread records, and otherwise the scanner
after the view-list fetches of this call, with `_table_index = 0` in the newly fetched
View List.  The record projected is `View List[view_cursor]` of `self1`; `db` is
`dbs[_db_index - 1]`, the database the current View List was fetched for (the last call
in the catalog history is the fetch for `db`, and the View List is what it wrote).  Every
column whose slot id is in 1..10 receives the value the projection rule gives for
(`db`, record): 1 "def", 2 extract_db_name of `db`, 3 the name, 4 the ddl_sql, 5 "NONE",
6 "NO", 7 "", 8 "", 9 "utf8", 10 "utf8_general_ci"; the other columns receive nothing. -/
theorem get_next_row_values (helper : SchemaHelper) (param : SchemaScannerParam)
    (dbs : List String) (self : SchemaViewsScanner) (trace : List CatalogCall) (chunk : Chunk)
    (eos : Bool) (r : GetNextResult) (hreach : Reachable helper param dbs self trace)
    (hwf : chunk.WF) (hcall : get_next helper self (some chunk) (some eos) trace = some r)
    (hok : r.status = Status.OK) (hrow : r.eos = some false) :
    ∃ (self1 : SchemaViewsScanner) (db : String) (view_record : TTableStatus)
      (trace1 : List CatalogCall) (old : TListTableStatusResult),
      get_next_while helper self trace = some (WhileExit.done, self1, r.trace) ∧
      (self._table_index < self._table_result.tables.length → self1 = self) ∧
      (self._table_result.tables.length ≤ self._table_index →
        self1._table_index = 0 ∧ self._db_index < self1._db_index) ∧
      r.scanner = { self1 with _table_index := self1._table_index + 1 } ∧
      self1._table_result.tables[self1._table_index]? = some view_record ∧
      1 ≤ self1._db_index ∧ dbs[self1._db_index - 1]? = some db ∧
      r.trace = trace1 ++ [CatalogCall.list_table_status (get_new_table_params param db)] ∧
      self1._table_result
        = (helper.list_table_status trace1 (get_new_table_params param db) old).2 ∧
      r.chunk = some ⟨chunk.columns.map fun e =>
        (e.1, e.2 ++ (projection_rule helper.extract_db_name db view_record e.1).toList)⟩ := by
  rcases get_next_some helper self _ _ trace r hcall with
    ⟨hbad, _⟩ | ⟨c, e, exit, s1, _, hc, _, hrun, hcase⟩
  · rw [hok] at hbad
    simp [Status.ok] at hbad
  · simp only [Option.some.injEq] at hc
    subst hc
    rcases hcase with ⟨status, hexit, hr⟩ | ⟨hexit, hr⟩ | ⟨hexit, c2, hfill, hr⟩
    · have hx := hrun.exit_state.2.2 status hexit
      rw [hr] at hok
      simp only at hok
      rw [hok] at hx
      simp [Status.ok] at hx
    · rw [hr] at hrow
      simp at hrow
    · obtain ⟨_, j2, j3, _, _, j6⟩ :=
        hrun.preserves_inv hreach.scanner_inv (by intro status; rw [hexit]; simp)
      have hlt := hrun.exit_state.1 hexit
      have htbl : s1._table_result.tables[s1._table_index]?
          = some (s1._table_result.tables[s1._table_index]) := List.getElem?_eq_getElem hlt
      have hfetched : self._table_result.tables.length ≤ self._table_index →
          s1._table_index = 0 ∧ self._db_index < s1._db_index := by
        intro hge
        rcases hrun.last_fetch with ⟨h1, _, _⟩ | ⟨_, _, _, h1, _, _, _, _, _, h7⟩
        · rw [h1] at hlt
          omega
        · exact ⟨(h7 (by intro status; rw [hexit]; simp)).2, h1⟩
      rcases j6 with ⟨_, hempty⟩ | ⟨trace1, old, db, o1, o2, o3, o4⟩
      · rw [hempty] at hlt
        simp at hlt
      · rw [fill_chunk_eq helper s1 chunk _ db hwf htbl (fun _ => ⟨o1, o2⟩)] at hfill
        simp only [Option.some.injEq, Prod.mk.injEq, true_and] at hfill
        subst hexit
        refine ⟨s1, db, _, trace1, old, hrun.get_next_while_eq,
          fun hunread => (hrun.of_unread hunread).2.1, hfetched, by rw [hr], htbl, by omega,
          by rw [← j3]; exact o2, by rw [← j2]; exact o3, by rw [← j2]; exact o4, ?_⟩
        rw [hr, ← hfill]
        rfl

/-- The witness of C4 as amended: the second call with `pair_helper`, on the reachable
scanner with `_table_index = 1` and the View List `[w]`; the call fetches the view list of
`s2` and projects its record `x`. -/
theorem get_next_row_values_witness :
    (Reachable pair_helper scenario_param ["s1", "s2"] pair_first_result.scanner
        pair_first_result.trace ∧ scenario_chunk.WF ∧
      get_next pair_helper pair_first_result.scanner (some scenario_chunk) (some false)
        pair_first_result.trace = some pair_second_result ∧
      pair_second_result.status = Status.OK ∧ pair_second_result.eos = some false) ∧
    ∃ (self1 : SchemaViewsScanner) (db : String) (view_record : TTableStatus)
      (trace1 : List CatalogCall) (old : TListTableStatusResult),
      get_next_while pair_helper pair_first_result.scanner pair_first_result.trace
        = some (WhileExit.done, self1, pair_second_result.trace) ∧
      (pair_first_result.scanner._table_index
          < pair_first_result.scanner._table_result.tables.length →
        self1 = pair_first_result.scanner) ∧
      (pair_first_result.scanner._table_result.tables.length
          ≤ pair_first_result.scanner._table_index →
        self1._table_index = 0 ∧ pair_first_result.scanner._db_index < self1._db_index) ∧
      pair_second_result.scanner
        = { self1 with _table_index := self1._table_index + 1 } ∧
      self1._table_result.tables[self1._table_index]? = some view_record ∧
      1 ≤ self1._db_index ∧ ["s1", "s2"][self1._db_index - 1]? = some db ∧
      pair_second_result.trace
        = trace1 ++ [CatalogCall.list_table_status (get_new_table_params scenario_param db)] ∧
      self1._table_result
        = (pair_helper.list_table_status trace1
            (get_new_table_params scenario_param db) old).2 ∧
      pair_second_result.chunk = some ⟨scenario_chunk.columns.map fun e =>
        (e.1, e.2 ++ (projection_rule pair_helper.extract_db_name db view_record e.1).toList)⟩ :=
  ⟨⟨pair_first_reachable, by decide, pair_second_call, rfl, rfl⟩,
    get_next_row_values pair_helper scenario_param ["s1", "s2"] pair_first_result.scanner
      pair_first_result.trace scenario_chunk false pair_second_result
      pair_first_reachable (by decide) pair_second_call rfl rfl⟩

/-- The counterexample to C4: with `pair_helper` the scanner reached after the first row
has the View List `[w]` and `_table_index = 1`, so `View List[view_cursor before the
call]` does not exist; the next `get_next` call yields a row all the same, and its
TABLE_NAME and VIEW_DEFINITION are those of `x`, the record at index 0 of the View List
the call has fetched for `s2`. -/
theorem fetching_call_reads_the_new_view_list :
    Reachable pair_helper scenario_param ["s1", "s2"] pair_first_result.scanner
        pair_first_result.trace ∧
      pair_first_result.scanner._table_index = 1 ∧
      pair_first_result.scanner._table_result.tables = [⟨"w", "SELECT 1"⟩] ∧
      pair_first_result.scanner._table_result.tables[pair_first_result.scanner._table_index]?
        = none ∧
      get_next pair_helper pair_first_result.scanner (some scenario_chunk) (some false)
          pair_first_result.trace
        = some ⟨Status.OK, ⟨true, scenario_param, 2, 1, ⟨["s1", "s2"]⟩, ⟨[⟨"x", "SELECT 2"⟩]⟩⟩,
            some ⟨[(1, ["def"]), (2, ["s2"]), (3, ["x"]), (4, ["SELECT 2"]), (5, ["NONE"]),
              (6, ["NO"]), (7, [""]), (8, [""]), (9, ["utf8"]), (10, ["utf8_general_ci"])]⟩,
            some false,
            [CatalogCall.list_table_status (get_new_table_params scenario_param "s1"),
              CatalogCall.list_table_status (get_new_table_params scenario_param "s2")]⟩ :=
  ⟨pair_first_reachable, rfl, rfl, rfl, pair_second_call⟩

/-! ## A failed view-list fetch -/

theorem get_new_table_trace (helper : SchemaHelper) (self : SchemaViewsScanner)
    (trace : List CatalogCall) (r : CallResult) (h : get_new_table helper self trace = some r) :
    ∃ db, self._db_result.dbs[self._db_index]? = some db ∧
      r.trace = trace ++ [CatalogCall.list_table_status (get_new_table_params self._param db)] := by
  obtain ⟨db, hdb⟩ := get_new_table_some helper self trace r h
  rw [get_new_table_eq helper self trace db hdb] at h
  simp only [Option.some.injEq] at h
  subst h
  exact ⟨db, hdb, by split <;> rfl⟩

/-- The fetches one run of the loop issues are those of the databases from `_db_index` on,
one each, in Database List order. -/
theorem WhileRun.trace_eq {helper : SchemaHelper} {self : SchemaViewsScanner}
    {trace : List CatalogCall} {exit : WhileExit} {self' : SchemaViewsScanner}
    {trace' : List CatalogCall} (h : WhileRun helper self trace exit self' trace') :
    trace' = trace ++
      ((self._db_result.dbs.drop self._db_index).take (self'._db_index - self._db_index)).map
        fun db => CatalogCall.list_table_status (get_new_table_params self._param db) := by
  induction h with
  | done self trace hlt => simp
  | eos self trace hge hdb => simp
  | error self trace r hge hdb hr hok =>
    obtain ⟨db, hdb', htr⟩ := get_new_table_trace helper self trace r hr
    have hd := get_new_table_db helper self trace r hr
    have hget : self._db_result.dbs[self._db_index] = db := by
      rw [List.getElem?_eq_getElem hdb] at hdb'
      simpa using hdb'
    rw [htr, hd.1, List.drop_eq_getElem_cons hdb, hget]
    simp
  | step self trace r exit self' trace' hge hdb hr hok hrest ih =>
    obtain ⟨db, hdb', htr⟩ := get_new_table_trace helper self trace r hr
    have hd := get_new_table_db helper self trace r hr
    have hf := hrest.frame
    have hget : self._db_result.dbs[self._db_index] = db := by
      rw [List.getElem?_eq_getElem hdb] at hdb'
      simpa using hdb'
    have hsub : self'._db_index - self._db_index = (self'._db_index - r.scanner._db_index) + 1 := by
      omega
    rw [ih, htr, hd.2.1, hd.2.2.2, hsub, List.drop_eq_getElem_cons hdb, hget, hd.1]
    simp

theorem WhileRun.error_table_index {helper : SchemaHelper} {self : SchemaViewsScanner}
    {trace : List CatalogCall} {exit : WhileExit} {self' : SchemaViewsScanner}
    {trace' : List CatalogCall} (h : WhileRun helper self trace exit self' trace') :
    (∃ status, exit = WhileExit.error status) →
      (self'._db_index = self._db_index + 1 ∧ self'._table_index = self._table_index) ∨
      (self._db_index + 1 < self'._db_index ∧ self'._table_index = 0) := by
  induction h with
  | done self trace hlt => intro ⟨_, h⟩; simp at h
  | eos self trace hge hdb => intro ⟨_, h⟩; simp at h
  | error self trace r hge hdb hr hok =>
    intro _
    left
    have hget : self._db_result.dbs[self._db_index]?
        = some (self._db_result.dbs[self._db_index]) := List.getElem?_eq_getElem hdb
    rw [get_new_table_eq helper self trace _ hget] at hr
    simp only [Option.some.injEq] at hr
    split at hr
    · subst hr
      simp [Status.ok] at hok
    · subst hr
      exact ⟨rfl, rfl⟩
  | step self trace r exit self' trace' hge hdb hr hok hrest ih =>
    intro hexit
    right
    have hget : self._db_result.dbs[self._db_index]?
        = some (self._db_result.dbs[self._db_index]) := List.getElem?_eq_getElem hdb
    have hd := get_new_table_db helper self trace r hr
    have hti : r.scanner._table_index = 0 := by
      rw [get_new_table_eq helper self trace _ hget] at hr
      simp only [Option.some.injEq] at hr
      split at hr
      · subst hr; rfl
      · subst hr
        simp only at hok
        simp_all
    rcases ih hexit with ⟨h1, h2⟩ | ⟨h1, h2⟩
    · exact ⟨by omega, by rw [h2, hti]⟩
    · exact ⟨by omega, h2⟩

/-- C2 as amended: when a view-list fetch issued inside `get_next` fails (an initialised
scanner, non-null handles, a status other than OK), `get_next` returns the status of that
fetch, which is the last call in the catalog history, leaves the chunk and `eos` as they
were and the Database List unchanged; but `_db_index` has been advanced by one for every
fetch the call issued, the failed one included, so it is strictly greater than before the
call (`_table_index` is as before when the failed fetch was the first of the call, and 0
when the call had fetched an empty View List before it), and a repeated `get_next` only
issues fetches for the databases after the one whose fetch failed. -/
theorem get_next_fetch_failure (helper : SchemaHelper) (self : SchemaViewsScanner)
    (chunk : Chunk) (eos : Bool) (trace : List CatalogCall) (r : GetNextResult)
    (hinit : self._is_init = true)
    (hcall : get_next helper self (some chunk) (some eos) trace = some r)
    (hfail : r.status ≠ Status.OK) :
    (∃ (trace1 : List CatalogCall) (old : TListTableStatusResult) (db : String),
      self._db_result.dbs[r.scanner._db_index - 1]? = some db ∧
      r.trace = trace1 ++ [CatalogCall.list_table_status (get_new_table_params self._param db)] ∧
      r.status
        = (helper.list_table_status trace1 (get_new_table_params self._param db) old).1) ∧
    self._db_index < r.scanner._db_index ∧
    r.trace.length = trace.length + (r.scanner._db_index - self._db_index) ∧
    r.scanner._db_result = self._db_result ∧ r.chunk = some chunk ∧ r.eos = some eos ∧
    ((r.scanner._db_index = self._db_index + 1 ∧
        r.scanner._table_index = self._table_index) ∨
      (self._db_index + 1 < r.scanner._db_index ∧ r.scanner._table_index = 0)) ∧
    ∀ (helper' : SchemaHelper) (chunk' : Chunk) (eos' : Bool) (trace' : List CatalogCall)
      (r' : GetNextResult),
      get_next helper' r.scanner (some chunk') (some eos') trace' = some r' →
      r'.trace = trace' ++
        ((self._db_result.dbs.drop r.scanner._db_index).take
          (r'.scanner._db_index - r.scanner._db_index)).map
          fun db => CatalogCall.list_table_status (get_new_table_params self._param db) := by
  rcases get_next_some helper self _ _ trace r hcall with
    ⟨_, _, _, _, _, hbad⟩ | ⟨c, e, exit, s1, _, hc, he, hrun, hcase⟩
  · simp [hinit] at hbad
  · simp only [Option.some.injEq] at hc he
    subst hc he
    rcases hcase with ⟨status, hexit, hr⟩ | ⟨_, hr⟩ | ⟨_, c2, _, hr⟩
    · have hs : r.scanner = s1 := by rw [hr]
      have hst : r.status = status := by rw [hr]
      obtain ⟨f1, f2, f3, f4⟩ := hrun.frame
      have htrace := hrun.trace_eq
      rcases hrun.last_fetch with ⟨_, _, h3⟩ | ⟨trace1, old, db, h1, h2, h3, _, _, h6, _⟩
      · exact absurd hexit (h3 status)
      · have hlt : s1._db_index - 1 < s1._db_result.dbs.length := by
          by_contra hge
          rw [List.getElem?_eq_none (by omega)] at h2
          simp at h2
        rw [f3] at hlt
        refine ⟨⟨trace1, old, db, by rw [hs, ← f3]; exact h2, h3, by rw [hst]; exact h6 status hexit⟩,
          by rw [hs]; exact h1, ?_, by rw [hs]; exact f3, by rw [hr], by rw [hr],
          by rw [hs]; exact hrun.error_table_index ⟨status, hexit⟩, ?_⟩
        · rw [htrace, hs]
          simp only [List.length_append, List.length_map, List.length_take, List.length_drop]
          omega
        · intro helper' chunk' eos' trace' r' hcall'
          rcases get_next_some helper' r.scanner _ _ trace' r' hcall' with
            ⟨_, hsame, _, _, htr, _⟩ | ⟨_, _, _, s2, _, _, _, hrun', hcase'⟩
          · rw [htr, hsame]
            simp
          · have htrace' := hrun'.trace_eq
            have hs2 : r'.scanner._db_index = s2._db_index := by
              rcases hcase' with ⟨_, _, hr'⟩ | ⟨_, hr'⟩ | ⟨_, _, _, hr'⟩ <;> rw [hr']
            rw [hs2, htrace', hs, f3, f2]
    · rw [hr] at hfail
      exact absurd rfl hfail
    · rw [hr] at hfail
      exact absurd rfl hfail

/-- The counterexample to C2: the Database List is `["s1", "s2"]` and every view-list fetch
fails with `CatalogUnavailable`.  The first `get_next` on the fresh scanner returns that
error with `_db_index` already 1, not 0; the repeated `get_next` then asks for `s2`, not
again for `s1`, and returns with `_db_index = 2`. -/
theorem fetch_failure_advances_db_index :
    get_next unavailable_helper (fresh scenario_param ["s1", "s2"]) (some scenario_chunk)
        (some false) []
      = some ⟨Status.CatalogUnavailable "rpc failed",
          ⟨true, scenario_param, 1, 0, ⟨["s1", "s2"]⟩, ⟨[]⟩⟩, some scenario_chunk, some false,
          [CatalogCall.list_table_status (get_new_table_params scenario_param "s1")]⟩ ∧
    get_next unavailable_helper ⟨true, scenario_param, 1, 0, ⟨["s1", "s2"]⟩, ⟨[]⟩⟩
        (some scenario_chunk) (some false)
        [CatalogCall.list_table_status (get_new_table_params scenario_param "s1")]
      = some ⟨Status.CatalogUnavailable "rpc failed",
          ⟨true, scenario_param, 2, 0, ⟨["s1", "s2"]⟩, ⟨[]⟩⟩, some scenario_chunk, some false,
          [CatalogCall.list_table_status (get_new_table_params scenario_param "s1"),
            CatalogCall.list_table_status (get_new_table_params scenario_param "s2")]⟩ := by
  constructor
  · rw [get_next_eq _ _ _ _ _ rfl, get_next_while_eq_fuel _ 2 _ _ (by decide)]
    decide
  · rw [get_next_eq _ _ _ _ _ rfl, get_next_while_eq_fuel _ 1 _ _ (by decide)]
    decide

/-- The witness of C2 as amended, on the same failing catalog. -/
theorem get_next_fetch_failure_witness :
    ((fresh scenario_param ["s1", "s2"])._is_init = true ∧
      get_next unavailable_helper (fresh scenario_param ["s1", "s2"]) (some scenario_chunk)
          (some false) []
        = some ⟨Status.CatalogUnavailable "rpc failed",
            ⟨true, scenario_param, 1, 0, ⟨["s1", "s2"]⟩, ⟨[]⟩⟩, some scenario_chunk,
            some false,
            [CatalogCall.list_table_status (get_new_table_params scenario_param "s1")]⟩ ∧
      Status.CatalogUnavailable "rpc failed" ≠ Status.OK) ∧
    (fresh scenario_param ["s1", "s2"])._db_index < 1 :=
  have hcall : get_next unavailable_helper (fresh scenario_param ["s1", "s2"])
      (some scenario_chunk) (some false) []
        = some ⟨Status.CatalogUnavailable "rpc failed",
            ⟨true, scenario_param, 1, 0, ⟨["s1", "s2"]⟩, ⟨[]⟩⟩, some scenario_chunk,
            some false,
            [CatalogCall.list_table_status (get_new_table_params scenario_param "s1")]⟩ := by
    rw [get_next_eq _ _ _ _ _ rfl, get_next_while_eq_fuel _ 2 _ _ (by decide)]
    decide
  ⟨⟨rfl, hcall, by decide⟩,
    (get_next_fetch_failure unavailable_helper (fresh scenario_param ["s1", "s2"])
      scenario_chunk false [] _ rfl hcall (by decide)).2.1⟩

/-! ## A complete enumeration -/

theorem Chunk.with_row_WF (chunk : Chunk) (row : Int → Option String) (h : chunk.WF) :
    (chunk.with_row row).WF := by
  unfold Chunk.WF Chunk.with_row at *
  rw [List.map_map]
  have : (Prod.fst ∘ fun e : Int × List String => (e.1, e.2 ++ (row e.1).toList)) = Prod.fst := rfl
  rw [this]
  exact h

theorem WhileRun.remaining_eq {helper : SchemaHelper} {self : SchemaViewsScanner}
    {trace : List CatalogCall} {exit : WhileExit} {self' : SchemaViewsScanner}
    {trace' : List CatalogCall} (h : WhileRun helper self trace exit self' trace')
    (views : String → List TTableStatus)
    (hcat : ∀ tr db old, db ∈ self._db_result.dbs →
      helper.list_table_status tr (get_new_table_params self._param db) old
        = (Status.OK, ⟨views db⟩))
    (hidx : self._db_index ≤ self._db_result.dbs.length)
    (hown : self._table_index < self._table_result.tables.length → 1 ≤ self._db_index) :
    (∀ status, exit ≠ WhileExit.error status) ∧
      self'._db_index ≤ self'._db_result.dbs.length ∧
      (self'._table_index < self'._table_result.tables.length → 1 ≤ self'._db_index) ∧
      remaining views self' = remaining views self := by
  induction h with
  | done self trace hlt => exact ⟨by simp, hidx, hown, rfl⟩
  | eos self trace hge hdb => exact ⟨by simp, hidx, hown, rfl⟩
  | error self trace r hge hdb hr hok =>
    exfalso
    have hget : self._db_result.dbs[self._db_index]?
        = some (self._db_result.dbs[self._db_index]) := List.getElem?_eq_getElem hdb
    rw [get_new_table_eq helper self trace _ hget,
      hcat trace _ self._table_result (List.getElem_mem _)] at hr
    simp only [Status.ok, if_true, Option.some.injEq] at hr
    subst hr
    simp [Status.ok] at hok
  | step self trace r exit self' trace' hge hdb hr hok hrest ih =>
    have hget : self._db_result.dbs[self._db_index]?
        = some (self._db_result.dbs[self._db_index]) := List.getElem?_eq_getElem hdb
    rw [get_new_table_eq helper self trace _ hget,
      hcat trace _ self._table_result (List.getElem_mem _)] at hr
    simp only [Status.ok, if_true, Option.some.injEq] at hr
    subst hr
    obtain ⟨i1, i2, i3, i4⟩ := ih hcat (by simp only; omega) (by simp only; omega)
    refine ⟨i1, i2, i3, ?_⟩
    rw [i4]
    simp only [remaining, List.drop_zero, Nat.add_sub_cancel]
    rw [List.drop_of_length_le hge, List.drop_eq_getElem_cons hdb,
      List.getD_eq_getElem _ _ hdb, List.flatMap_cons]
    simp only [List.map_nil, List.nil_append]

theorem scan_remaining (helper : SchemaHelper) (views : String → List TTableStatus)
    (calls : Nat) :
    ∀ (self : SchemaViewsScanner) (chunk : Chunk) (trace : List CatalogCall),
      self._is_init = true →
      (∀ tr db old, db ∈ self._db_result.dbs →
        helper.list_table_status tr (get_new_table_params self._param db) old
          = (Status.OK, ⟨views db⟩)) →
      self._db_index ≤ self._db_result.dbs.length →
      (self._table_index < self._table_result.tables.length → 1 ≤ self._db_index) →
      chunk.WF → (remaining views self).length < calls →
      ∃ (self' : SchemaViewsScanner) (trace' : List CatalogCall),
        scan helper calls self chunk trace
          = some ⟨(remaining views self).length, true, Status.OK, self',
              ⟨chunk.columns.map fun e =>
                (e.1, e.2 ++ (remaining views self).filterMap fun p =>
                  projection_rule helper.extract_db_name p.1 p.2 e.1)⟩, trace'⟩ := by
  induction calls with
  | zero => intro self chunk trace _ _ _ _ _ hlt; omega
  | succ n ih =>
    intro self chunk trace hinit hcat hidx hown hwf hlt
    have hsome := get_next_while_isSome helper _ self trace (le_refl _)
    obtain ⟨⟨exit, s1, tr1⟩, hwhile⟩ := Option.isSome_iff_exists.mp hsome
    have hrun := get_next_while_run helper _ _ _ _ _ hwhile
    obtain ⟨r1, r2, r3, r4⟩ := hrun.remaining_eq views hcat hidx hown
    obtain ⟨f1, f2, f3, _⟩ := hrun.frame
    have hx := hrun.exit_state
    cases exit with
    | error status => exact absurd rfl (r1 status)
    | eos =>
      obtain ⟨x1, x2⟩ := hx.2.1 rfl
      have hnil : remaining views self = [] := by
        rw [← r4]
        simp [remaining, List.drop_of_length_le x1, List.drop_of_length_le x2]
      refine ⟨s1, tr1, ?_⟩
      simp only [scan, get_next_eq helper self chunk false trace hinit, hwhile, hnil,
        Status.ok]
      simp
    | done =>
      have x1 := hx.1 rfl
      have hdb0 := r3 x1
      have hdblt : s1._db_index - 1 < s1._db_result.dbs.length := by omega
      have htbl : s1._table_result.tables[s1._table_index]?
          = some (s1._table_result.tables[s1._table_index]) := List.getElem?_eq_getElem x1
      have hfill := fill_chunk_eq helper s1 chunk _ (s1._db_result.dbs[s1._db_index - 1])
        hwf htbl (fun _ => ⟨by omega, List.getElem?_eq_getElem hdblt⟩)
      have hrem : remaining views s1
          = (s1._db_result.dbs[s1._db_index - 1], s1._table_result.tables[s1._table_index])
            :: remaining views { s1 with _table_index := s1._table_index + 1 } := by
        simp only [remaining]
        rw [List.drop_eq_getElem_cons x1, List.getD_eq_getElem _ _ hdblt]
        simp only [List.map_cons, List.cons_append]
      obtain ⟨s', tr', hscan⟩ := ih { s1 with _table_index := s1._table_index + 1 }
        (chunk.with_row (projection_rule helper.extract_db_name
          (s1._db_result.dbs[s1._db_index - 1]) (s1._table_result.tables[s1._table_index])))
        tr1 (f1.trans hinit) (by rw [f2, f3]; exact hcat) r2 (fun _ => hdb0)
        (Chunk.with_row_WF _ _ hwf)
        (by rw [← r4, hrem] at hlt; simp only [List.length_cons] at hlt; omega)
      refine ⟨s', tr', ?_⟩
      simp only [scan, get_next_eq helper self chunk false trace hinit, hwhile, hfill,
        Status.ok, Option.getD_some, hscan]
      rw [← r4, hrem]
      simp only [Bool.not_true, Bool.false_eq_true, if_false, Option.some.injEq,
        Bool.false_eq_true, reduceCtorEq, Option.map_some', List.length_cons,
        ScanResult.mk.injEq, true_and, and_true, Chunk.mk.injEq, Chunk.with_row,
        List.map_map]
      apply List.map_congr_left
      intro e _
      simp only [Function.comp, List.filterMap_cons]
      cases projection_rule helper.extract_db_name (s1._db_result.dbs[s1._db_index - 1])
        (s1._table_result.tables[s1._table_index]) e.1 <;> simp

theorem remaining_fresh (views : String → List TTableStatus) (param : SchemaScannerParam)
    (dbs : List String) :
    remaining views (fresh param dbs)
      = dbs.flatMap fun db => (views db).map fun v => (db, v) := by
  simp [remaining, fresh]

theorem length_rows (views : String → List TTableStatus) (dbs : List String) :
    (dbs.flatMap fun db => (views db).map fun v => (db, v)).length
      = (dbs.map fun db => (views db).length).sum := by
  rw [List.length_flatMap]
  congr 1
  apply List.map_congr_left
  intro db _
  simp

/-- C1: for every Database List `dbs` and every catalog whose view-list fetches all
succeed, answering `views db` for database `db`, the caller's pull loop on a freshly
started scanner reaches `eos` with status OK once it is allowed more calls than there are
views; the number of rows produced is the sum of the view-list lengths; and every column
of the chunk has received, in this order, the projection for its slot id of each
(database, view record) pair of the concatenation, over the databases in Database List
order, of that database's view list in view-list order. -/
theorem scan_fresh_produces_all_rows (helper : SchemaHelper) (param : SchemaScannerParam)
    (dbs : List String) (views : String → List TTableStatus) (chunk : Chunk)
    (trace : List CatalogCall) (calls : Nat) (hwf : chunk.WF)
    (hcat : ∀ tr db old, db ∈ dbs →
      helper.list_table_status tr (get_new_table_params param db) old
        = (Status.OK, ⟨views db⟩))
    (hcalls : (dbs.map fun db => (views db).length).sum < calls) :
    ∃ (self' : SchemaViewsScanner) (trace' : List CatalogCall),
      scan helper calls (fresh param dbs) chunk trace
        = some ⟨(dbs.map fun db => (views db).length).sum, true, Status.OK, self',
            ⟨chunk.columns.map fun e =>
              (e.1, e.2 ++ (dbs.flatMap fun db => (views db).map fun v => (db, v)).filterMap
                fun p => projection_rule helper.extract_db_name p.1 p.2 e.1)⟩, trace'⟩ := by
  have h := scan_remaining helper views calls (fresh param dbs) chunk trace rfl hcat
    (Nat.zero_le _) (fun hlt => by simp [fresh] at hlt) hwf
    (by rw [remaining_fresh, length_rows]; exact hcalls)
  rw [remaining_fresh, length_rows] at h
  exact h

theorem scenario_helper_views (tr : List CatalogCall) (db : String)
    (old : TListTableStatusResult) (_hdb : db ∈ ["s1", "s2"]) :
    scenario_helper.list_table_status tr (get_new_table_params scenario_param db) old
      = (Status.OK, ⟨scenario_views db⟩) := by
  simp [scenario_helper, scenario_views, get_new_table_params, scenario_param]

/-- The witness of C1: the spec's first scenario, with two calls allowed for its one view. -/
theorem scan_fresh_produces_all_rows_witness :
    (scenario_chunk.WF ∧
      (∀ tr db old, db ∈ ["s1", "s2"] →
        scenario_helper.list_table_status tr (get_new_table_params scenario_param db) old
          = (Status.OK, ⟨scenario_views db⟩)) ∧
      (["s1", "s2"].map fun db => (scenario_views db).length).sum < 2) ∧
    ∃ (self' : SchemaViewsScanner) (trace' : List CatalogCall),
      scan scenario_helper 2 (fresh scenario_param ["s1", "s2"]) scenario_chunk []
        = some ⟨(["s1", "s2"].map fun db => (scenario_views db).length).sum, true, Status.OK,
            self',
            ⟨scenario_chunk.columns.map fun e =>
              (e.1, e.2 ++
                (["s1", "s2"].flatMap fun db => (scenario_views db).map fun v => (db, v)).filterMap
                  fun p => projection_rule scenario_helper.extract_db_name p.1 p.2 e.1)⟩,
            trace'⟩ :=
  ⟨⟨by decide, scenario_helper_views, by decide⟩,
    scan_fresh_produces_all_rows scenario_helper scenario_param ["s1", "s2"] scenario_views
      scenario_chunk [] 2 (by decide) scenario_helper_views (by decide)⟩

theorem rows_pairs_nodup (extract : String → String) (views : String → List TTableStatus)
    (dbs : List String) (hdbs : (dbs.map extract).Nodup)
    (hviews : ∀ db ∈ dbs, ((views db).map TTableStatus.name).Nodup) :
    ((dbs.flatMap fun db => (views db).map fun v => (db, v)).map fun p =>
      (extract p.1, p.2.name)).Nodup := by
  rw [List.map_flatMap, List.nodup_flatMap]
  constructor
  · intro db hdb
    rw [List.map_map]
    have hinj : Function.Injective (fun n : String => (extract db, n)) := by
      intro a b hab
      simpa using hab
    have := (hviews db hdb).map hinj
    rw [List.map_map] at this
    exact this
  · have hp : List.Pairwise (fun a b => extract a ≠ extract b) dbs := by
      have := hdbs
      unfold List.Nodup at this
      rw [List.pairwise_map] at this
      exact this
    refine hp.imp ?_
    intro a b hab
    simp only [Function.onFun, List.map_map]
    intro x hxa hxb
    simp only [List.mem_map, Function.comp] at hxa hxb
    obtain ⟨_, _, h1⟩ := hxa
    obtain ⟨_, _, h2⟩ := hxb
    apply hab
    rw [← h2] at h1
    simp only [Prod.mk.injEq] at h1
    exact h1.1

/-- C3 as amended: over a complete enumeration from a freshly started scanner, with a
catalog whose fetches succeed, the (TABLE_SCHEMA, TABLE_NAME) pairs of the rows produced
(the columns of slot ids 2 and 3, row by row) are pairwise distinct whenever the extracted
names of the databases of the Database List are pairwise distinct and the names within
each fetched view list are pairwise distinct. -/
theorem scan_fresh_pairs_distinct (helper : SchemaHelper) (param : SchemaScannerParam)
    (dbs : List String) (views : String → List TTableStatus) (chunk : Chunk)
    (trace : List CatalogCall) (calls : Nat) (hwf : chunk.WF)
    (hschema : ((2 : Int), ([] : List String)) ∈ chunk.columns)
    (hname : ((3 : Int), ([] : List String)) ∈ chunk.columns)
    (hcat : ∀ tr db old, db ∈ dbs →
      helper.list_table_status tr (get_new_table_params param db) old
        = (Status.OK, ⟨views db⟩))
    (hcalls : (dbs.map fun db => (views db).length).sum < calls)
    (hdbs : (dbs.map helper.extract_db_name).Nodup)
    (hviews : ∀ db ∈ dbs, ((views db).map TTableStatus.name).Nodup) :
    ∃ (q : ScanResult) (schemas names : List String),
      scan helper calls (fresh param dbs) chunk trace = some q ∧ q.eos = true ∧
      q.status = Status.OK ∧ ((2 : Int), schemas) ∈ q.chunk.columns ∧
      ((3 : Int), names) ∈ q.chunk.columns ∧ schemas.length = q.rows ∧
      names.length = q.rows ∧ (schemas.zip names).Nodup := by
  obtain ⟨s', tr', h⟩ := scan_remaining helper views calls (fresh param dbs) chunk trace rfl
    hcat (Nat.zero_le _) (fun hlt => by simp [fresh] at hlt) hwf
    (by rw [remaining_fresh, length_rows]; exact hcalls)
  rw [remaining_fresh] at h
  have h2 : ∀ rows : List (String × TTableStatus),
      (rows.filterMap fun p => projection_rule helper.extract_db_name p.1 p.2 2)
        = rows.map fun p => helper.extract_db_name p.1 := by
    intro rows
    rw [← List.filterMap_eq_map]
    rfl
  have h3 : ∀ rows : List (String × TTableStatus),
      (rows.filterMap fun p => projection_rule helper.extract_db_name p.1 p.2 3)
        = rows.map fun p => p.2.name := by
    intro rows
    rw [← List.filterMap_eq_map]
    rfl
  refine ⟨_, (dbs.flatMap fun db => (views db).map fun v => (db, v)).map
      fun p => helper.extract_db_name p.1,
    (dbs.flatMap fun db => (views db).map fun v => (db, v)).map fun p => p.2.name,
    h, rfl, rfl, ?_, ?_, ?_, ?_, ?_⟩
  · exact List.mem_map.mpr ⟨_, hschema, by simp only [List.nil_append, h2]⟩
  · exact List.mem_map.mpr ⟨_, hname, by simp only [List.nil_append, h3]⟩
  · simp only [List.length_map]
  · simp only [List.length_map]
  · rw [List.zip_map']
    exact rows_pairs_nodup helper.extract_db_name views dbs hdbs hviews

/-- The witness of C3 as amended: the Database List `["s1", "s2"]` with the views `v1`,
`v2` in `s1` and `v1` in `s2`.  The complete enumeration produces the three rows
(s1, v1), (s1, v2), (s2, v1), which are pairwise distinct. -/
theorem scan_fresh_pairs_distinct_witness :
    (scenario_chunk.WF ∧ ((2 : Int), ([] : List String)) ∈ scenario_chunk.columns ∧
      ((3 : Int), ([] : List String)) ∈ scenario_chunk.columns ∧
      (["s1", "s2"].map fun db => (two_views db).length).sum < 4 ∧
      (["s1", "s2"].map two_views_helper.extract_db_name).Nodup ∧
      ∀ db ∈ ["s1", "s2"], ((two_views db).map TTableStatus.name).Nodup) ∧
    scan two_views_helper 4 (fresh scenario_param ["s1", "s2"]) scenario_chunk []
      = some ⟨3, true, Status.OK,
          ⟨true, scenario_param, 2, 1, ⟨["s1", "s2"]⟩, ⟨[⟨"v1", "SELECT 3"⟩]⟩⟩,
          ⟨[(1, ["def", "def", "def"]), (2, ["s1", "s1", "s2"]), (3, ["v1", "v2", "v1"]),
            (4, ["SELECT 1", "SELECT 2", "SELECT 3"]), (5, ["NONE", "NONE", "NONE"]),
            (6, ["NO", "NO", "NO"]), (7, ["", "", ""]), (8, ["", "", ""]),
            (9, ["utf8", "utf8", "utf8"]),
            (10, ["utf8_general_ci", "utf8_general_ci", "utf8_general_ci"])]⟩,
          [CatalogCall.list_table_status (get_new_table_params scenario_param "s1"),
            CatalogCall.list_table_status (get_new_table_params scenario_param "s2")]⟩ ∧
    ∃ (q : ScanResult) (schemas names : List String),
      scan two_views_helper 4 (fresh scenario_param ["s1", "s2"]) scenario_chunk [] = some q ∧
      q.eos = true ∧ q.status = Status.OK ∧ ((2 : Int), schemas) ∈ q.chunk.columns ∧
      ((3 : Int), names) ∈ q.chunk.columns ∧ schemas.length = q.rows ∧
      names.length = q.rows ∧ (schemas.zip names).Nodup :=
  ⟨⟨by decide, by decide, by decide, by decide, by decide, by decide⟩, two_views_scan,
    scan_fresh_pairs_distinct two_views_helper scenario_param ["s1", "s2"] two_views
      scenario_chunk [] 4 (by decide) (by decide) (by decide) two_views_helper_views
      (by decide) (by decide) (by decide)⟩

/-- The counterexample to C3: the Database List is `["cat1.s1", "cat2.s1"]`, both with one
view `v`, and every call succeeds.  The complete enumeration produces two rows, and both
carry the pair (TABLE_SCHEMA, TABLE_NAME) = ("s1", "v"). -/
theorem qualified_names_give_equal_pairs :
    scan qualified_helper 3 (fresh scenario_param ["cat1.s1", "cat2.s1"]) scenario_chunk []
      = some ⟨2, true, Status.OK,
          ⟨true, scenario_param, 2, 1, ⟨["cat1.s1", "cat2.s1"]⟩, ⟨[⟨"v", "SELECT 1"⟩]⟩⟩,
          ⟨[(1, ["def", "def"]), (2, ["s1", "s1"]), (3, ["v", "v"]),
            (4, ["SELECT 1", "SELECT 1"]), (5, ["NONE", "NONE"]), (6, ["NO", "NO"]),
            (7, ["", ""]), (8, ["", ""]), (9, ["utf8", "utf8"]),
            (10, ["utf8_general_ci", "utf8_general_ci"])]⟩,
          [CatalogCall.list_table_status (get_new_table_params scenario_param "cat1.s1"),
            CatalogCall.list_table_status (get_new_table_params scenario_param "cat2.s1")]⟩ ∧
    ¬ (List.zip ["s1", "s1"] ["v", "v"]).Nodup := by
  have h1 : get_next qualified_helper (fresh scenario_param ["cat1.s1", "cat2.s1"])
      (some scenario_chunk) (some false) []
        = some ⟨Status.OK,
            ⟨true, scenario_param, 1, 1, ⟨["cat1.s1", "cat2.s1"]⟩, ⟨[⟨"v", "SELECT 1"⟩]⟩⟩,
            some ⟨[(1, ["def"]), (2, ["s1"]), (3, ["v"]), (4, ["SELECT 1"]), (5, ["NONE"]),
              (6, ["NO"]), (7, [""]), (8, [""]), (9, ["utf8"]), (10, ["utf8_general_ci"])]⟩,
            some false,
            [CatalogCall.list_table_status
              (get_new_table_params scenario_param "cat1.s1")]⟩ := by
    rw [get_next_eq _ _ _ _ _ rfl, get_next_while_eq_fuel _ 2 _ _ (by decide)]
    decide
  have h2 : get_next qualified_helper
      ⟨true, scenario_param, 1, 1, ⟨["cat1.s1", "cat2.s1"]⟩, ⟨[⟨"v", "SELECT 1"⟩]⟩⟩
      (some ⟨[(1, ["def"]), (2, ["s1"]), (3, ["v"]), (4, ["SELECT 1"]), (5, ["NONE"]),
        (6, ["NO"]), (7, [""]), (8, [""]), (9, ["utf8"]), (10, ["utf8_general_ci"])]⟩)
      (some false)
      [CatalogCall.list_table_status (get_new_table_params scenario_param "cat1.s1")]
        = some ⟨Status.OK,
            ⟨true, scenario_param, 2, 1, ⟨["cat1.s1", "cat2.s1"]⟩, ⟨[⟨"v", "SELECT 1"⟩]⟩⟩,
            some ⟨[(1, ["def", "def"]), (2, ["s1", "s1"]), (3, ["v", "v"]),
              (4, ["SELECT 1", "SELECT 1"]), (5, ["NONE", "NONE"]), (6, ["NO", "NO"]),
              (7, ["", ""]), (8, ["", ""]), (9, ["utf8", "utf8"]),
              (10, ["utf8_general_ci", "utf8_general_ci"])]⟩,
            some false,
            [CatalogCall.list_table_status (get_new_table_params scenario_param "cat1.s1"),
              CatalogCall.list_table_status
                (get_new_table_params scenario_param "cat2.s1")]⟩ := by
    rw [get_next_eq _ _ _ _ _ rfl, get_next_while_eq_fuel _ 1 _ _ (by decide)]
    decide
  have h3 : get_next qualified_helper
      ⟨true, scenario_param, 2, 1, ⟨["cat1.s1", "cat2.s1"]⟩, ⟨[⟨"v", "SELECT 1"⟩]⟩⟩
      (some ⟨[(1, ["def", "def"]), (2, ["s1", "s1"]), (3, ["v", "v"]),
        (4, ["SELECT 1", "SELECT 1"]), (5, ["NONE", "NONE"]), (6, ["NO", "NO"]),
        (7, ["", ""]), (8, ["", ""]), (9, ["utf8", "utf8"]),
        (10, ["utf8_general_ci", "utf8_general_ci"])]⟩)
      (some false)
      [CatalogCall.list_table_status (get_new_table_params scenario_param "cat1.s1"),
        CatalogCall.list_table_status (get_new_table_params scenario_param "cat2.s1")]
        = some ⟨Status.OK,
            ⟨true, scenario_param, 2, 1, ⟨["cat1.s1", "cat2.s1"]⟩, ⟨[⟨"v", "SELECT 1"⟩]⟩⟩,
            some ⟨[(1, ["def", "def"]), (2, ["s1", "s1"]), (3, ["v", "v"]),
              (4, ["SELECT 1", "SELECT 1"]), (5, ["NONE", "NONE"]), (6, ["NO", "NO"]),
              (7, ["", ""]), (8, ["", ""]), (9, ["utf8", "utf8"]),
              (10, ["utf8_general_ci", "utf8_general_ci"])]⟩,
            some true,
            [CatalogCall.list_table_status (get_new_table_params scenario_param "cat1.s1"),
              CatalogCall.list_table_status
                (get_new_table_params scenario_param "cat2.s1")]⟩ := by
    rw [get_next_eq _ _ _ _ _ rfl, get_next_while_eq_fuel _ 0 _ _ (by decide)]
    decide
  constructor
  · simp [scan, h1, h2, h3, Status.ok]
  · decide

/-! ## The requests and the declared schema -/

/-- C11: identity resolution is the same in the database-list request built by `start` and
in the view-list request built by `get_new_table` (these are the requests the two
functions send).  In both, `current_user_ident` is set iff an explicit identity is given;
with an explicit identity `user` and `user_ip` stay unset even if they are given; without
one, `user` is set iff given and `user_ip` is set iff given; so with none of the three
given the request carries no identity field. -/
theorem identity_resolution_is_shared (helper : SchemaHelper) (self : SchemaViewsScanner)
    (trace : List CatalogCall) (db : String) :
    (start helper Status.OK { self with _is_init := true } trace).trace
        = trace ++ [CatalogCall.get_db_names (start_db_params self._param)] ∧
      (get_new_table helper self trace).map (fun r => r.trace)
        = (self._db_result.dbs[self._db_index]?).map (fun name =>
            trace ++ [CatalogCall.list_table_status (get_new_table_params self._param name)]) ∧
      (start_db_params self._param).current_user_ident = self._param.current_user_ident ∧
      (get_new_table_params self._param db).current_user_ident
        = self._param.current_user_ident ∧
      (start_db_params self._param).user
        = (if self._param.current_user_ident.isSome then none else self._param.user) ∧
      (get_new_table_params self._param db).user
        = (if self._param.current_user_ident.isSome then none else self._param.user) ∧
      (start_db_params self._param).user_ip
        = (if self._param.current_user_ident.isSome then none else self._param.user_ip) ∧
      (get_new_table_params self._param db).user_ip
        = (if self._param.current_user_ident.isSome then none else self._param.user_ip) := by
  refine ⟨?_, ?_, ?_⟩
  · simp only [start, Bool.not_true, Bool.false_eq_true, if_false, Status.ok]
    split <;> rfl
  · cases hdb : self._db_result.dbs[self._db_index]? with
    | none => simp [get_new_table, hdb]
    | some name =>
      rw [get_new_table_eq helper self trace name hdb]
      simp only [Option.map_some', Option.some.injEq]
      split <;> rfl
  · generalize self._param = param
    obtain ⟨pdb, wild, user, user_ip, ident⟩ := param
    cases pdb <;> cases wild <;> cases user <;> cases user_ip <;> cases ident <;>
      simp [start_db_params, get_new_table_params]

theorem fill_slot_unknown (helper : SchemaHelper) (self : SchemaViewsScanner)
    (tbl_status : TTableStatus) (chunk : Chunk) (k : Int) (hk : ¬ (1 ≤ k ∧ k ≤ 10)) :
    fill_slot helper self tbl_status chunk k = some chunk := by
  unfold fill_slot
  split <;> first | omega | rfl

/-- C12: the declared output schema is exactly the ten columns TABLE_CATALOG, TABLE_SCHEMA,
TABLE_NAME, VIEW_DEFINITION, CHECK_OPTION, IS_UPDATABLE, DEFINER, SECURITY_TYPE,
CHARACTER_SET_CLIENT, COLLATION_CONNECTION in this order; every column has the varchar
type; TABLE_CATALOG is nullable and every other column is not.  The i-th declared column
(1-based) is the one slot id i fills: on the chunk laid out by the declared schema (i-th
column under slot id i) `fill_chunk` returns OK and leaves in the i-th column exactly the
value the spec's projection table gives for the name of the i-th declared column; and a
slot id outside 1..10, for which no column is declared, makes the switch of `fill_chunk`
fill nothing. -/
theorem declared_schema_matches_slots (sizeof_Slice : Nat) (helper : SchemaHelper)
    (self : SchemaViewsScanner) (tbl_status : TTableStatus) (db : String)
    (htbl : self._table_result.tables[self._table_index]? = some tbl_status)
    (hdb : self._db_index ≠ 0 ∧ self._db_result.dbs[self._db_index - 1]? = some db) :
    (_s_tbls_columns sizeof_Slice).map (fun c => c.name)
        = ["TABLE_CATALOG", "TABLE_SCHEMA", "TABLE_NAME", "VIEW_DEFINITION", "CHECK_OPTION",
            "IS_UPDATABLE", "DEFINER", "SECURITY_TYPE", "CHARACTER_SET_CLIENT",
            "COLLATION_CONNECTION"] ∧
      (∀ c ∈ _s_tbls_columns sizeof_Slice,
        c.type = TypeDescriptor.create_varchar_type sizeof_Slice ∧
        c.type.type = LogicalType.TYPE_VARCHAR) ∧
      (_s_tbls_columns sizeof_Slice).map (fun c => c.is_null)
        = [true, false, false, false, false, false, false, false, false, false] ∧
      fill_chunk helper self (schema_chunk (_s_tbls_columns sizeof_Slice))
        = some (Status.OK, { self with _table_index := self._table_index + 1 },
            ⟨(_s_tbls_columns sizeof_Slice).enum.map fun p =>
              ((p.1 : Int) + 1,
                (projection_by_name helper.extract_db_name db tbl_status p.2.name).toList)⟩) ∧
      (∀ c ∈ _s_tbls_columns sizeof_Slice,
        (projection_by_name helper.extract_db_name db tbl_status c.name).isSome = true) ∧
      (∀ (chunk : Chunk) (k : Int), ¬ (1 ≤ k ∧ k ≤ 10) →
        fill_slot helper self tbl_status chunk k = some chunk) := by
  refine ⟨rfl, ?_, rfl, ?_, ?_, fill_slot_unknown helper self tbl_status⟩
  · intro c hc
    simp only [_s_tbls_columns, List.mem_cons, List.mem_singleton, List.not_mem_nil,
      or_false] at hc
    rcases hc with h | h | h | h | h | h | h | h | h | h <;> subst h <;> exact ⟨rfl, rfl⟩
  · have hkeys : (schema_chunk (_s_tbls_columns sizeof_Slice)).columns.map Prod.fst
        = [1, 2, 3, 4, 5, 6, 7, 8, 9, 10] := rfl
    have hwf : (schema_chunk (_s_tbls_columns sizeof_Slice)).WF := by
      unfold Chunk.WF
      rw [hkeys]
      decide
    rw [fill_chunk_eq helper self _ tbl_status db hwf htbl (fun _ => hdb)]
    rfl
  · intro c hc
    simp only [_s_tbls_columns, List.mem_cons, List.mem_singleton, List.not_mem_nil,
      or_false] at hc
    rcases hc with h | h | h | h | h | h | h | h | h | h <;> subst h <;> rfl

/-- The witness of C12: `fill_chunk` on the chunk laid out by the declared schema, for the
record `v1` of database `s1` of the spec's first scenario. -/
theorem declared_schema_matches_slots_witness :
    (scenario_fetched._table_result.tables[scenario_fetched._table_index]?
        = some ⟨"v1", "SELECT 1"⟩ ∧
      scenario_fetched._db_index ≠ 0 ∧
      scenario_fetched._db_result.dbs[scenario_fetched._db_index - 1]? = some "s1") ∧
    fill_chunk scenario_helper scenario_fetched (schema_chunk (_s_tbls_columns 16))
      = some (Status.OK, { scenario_fetched with _table_index := 1 },
          ⟨[(1, ["def"]), (2, ["s1"]), (3, ["v1"]), (4, ["SELECT 1"]), (5, ["NONE"]),
            (6, ["NO"]), (7, [""]), (8, [""]), (9, ["utf8"]), (10, ["utf8_general_ci"])]⟩) :=
  ⟨⟨rfl, by decide, rfl⟩,
    (declared_schema_matches_slots 16 scenario_helper scenario_fetched ⟨"v1", "SELECT 1"⟩
      "s1" rfl ⟨by decide, rfl⟩).2.2.2.1.trans (by decide)⟩

/-! ## Cursor invariants and the advance loop -/

/-- C13: the cursor-bounds invariant.  In every state a freshly started scanner reaches
through `get_next` calls that return OK, `_table_index` is at most the length of the View
List and `_db_index` at most the length of the Database List.  A `get_next` call that
returns OK reports `eos` exactly when, after the loop has skipped every remaining database
with an empty view list (the scanner `self1` the loop is left with), `_db_index` is the
length of the Database List and `_table_index` the length of the View List; the scanner is
then left as `self1`.  In particular a scanner whose two cursors are at the ends of their
lists reports `eos` at once and is not changed. -/
theorem cursor_bounds_and_eos (helper : SchemaHelper) (param : SchemaScannerParam)
    (dbs : List String) (self : SchemaViewsScanner) (trace : List CatalogCall)
    (hreach : Reachable helper param dbs self trace) :
    self._table_index ≤ self._table_result.tables.length ∧
      self._db_index ≤ self._db_result.dbs.length ∧ self._db_result.dbs = dbs ∧
      (∀ (chunk : Chunk) (eos : Bool) (r : GetNextResult),
        get_next helper self (some chunk) (some eos) trace = some r → r.status = Status.OK →
        ∃ (exit : WhileExit) (self1 : SchemaViewsScanner),
          get_next_while helper self trace = some (exit, self1, r.trace) ∧
          (r.eos = some true ↔
            (self1._db_index = self1._db_result.dbs.length ∧
              self1._table_index = self1._table_result.tables.length)) ∧
          (r.eos = some true → r.scanner = self1)) ∧
      ((self._db_index = self._db_result.dbs.length ∧
          self._table_index = self._table_result.tables.length) →
        ∀ (chunk : Chunk) (eos : Bool),
          get_next helper self (some chunk) (some eos) trace
            = some ⟨Status.OK, self, some chunk, some true, trace⟩) := by
  obtain ⟨i1, i2, i3, i4, i5, i6⟩ := hreach.scanner_inv
  refine ⟨i5, by rw [i3]; exact i4, i3, ?_, ?_⟩
  · intro chunk eos r hcall hok
    rcases get_next_some helper self _ _ trace r hcall with
      ⟨hbad, _⟩ | ⟨c, e, exit, s1, _, _, _, hrun, hcase⟩
    · rw [hok] at hbad
      simp [Status.ok] at hbad
    · refine ⟨exit, s1, hrun.get_next_while_eq, ?_⟩
      rcases hcase with ⟨status, hexit, hr⟩ | ⟨hexit, hr⟩ | ⟨hexit, c2, hfill, hr⟩
      · have hx := hrun.exit_state.2.2 status hexit
        rw [hr] at hok
        simp only at hok
        rw [hok] at hx
        simp [Status.ok] at hx
      · obtain ⟨_, _, j3, j4, j5, _⟩ :=
          hrun.preserves_inv hreach.scanner_inv (by intro status; rw [hexit]; simp)
        obtain ⟨x1, x2⟩ := hrun.exit_state.2.1 hexit
        rw [j3] at x2
        have hs : r.scanner = s1 := by rw [hr]
        have he : r.eos = some true := by rw [hr]
        exact ⟨⟨fun _ => ⟨by rw [j3]; omega, by omega⟩, fun _ => he⟩, fun _ => hs⟩
      · have hlt := hrun.exit_state.1 hexit
        have he : r.eos = some false := by rw [hr]
        rw [he]
        constructor
        · constructor
          · intro h
            simp at h
          · intro h
            omega
        · intro h
          simp at h
  · intro hend chunk eos
    rw [get_next_eq helper self chunk eos trace i1,
      WhileRun.get_next_while_eq (WhileRun.eos self trace (by omega) (by omega))]

/-- The witness of C13: the scanner of the spec's first scenario after its one row
(`_db_index = 1`, `_table_index = 1`, View List `[v1]`).  The next call skips the empty
database `s2` and reports `eos`, with both cursors of the scanner the loop is left with at
the ends of their lists. -/
theorem cursor_bounds_and_eos_witness :
    (Reachable scenario_helper scenario_param ["s1", "s2"] scenario_first_result.scanner
        scenario_first_result.trace ∧
      get_next scenario_helper scenario_first_result.scanner (some scenario_chunk)
        (some false) scenario_first_result.trace = some scenario_second_result ∧
      scenario_second_result.status = Status.OK ∧
      scenario_second_result.eos = some true) ∧
    (scenario_first_result.scanner._table_index
        ≤ scenario_first_result.scanner._table_result.tables.length ∧
      scenario_first_result.scanner._db_index
        ≤ scenario_first_result.scanner._db_result.dbs.length) ∧
    ∃ (exit : WhileExit) (self1 : SchemaViewsScanner),
      get_next_while scenario_helper scenario_first_result.scanner
          scenario_first_result.trace
        = some (exit, self1, scenario_second_result.trace) ∧
      (scenario_second_result.eos = some true ↔
        (self1._db_index = self1._db_result.dbs.length ∧
          self1._table_index = self1._table_result.tables.length)) ∧
      (scenario_second_result.eos = some true → scenario_second_result.scanner = self1) :=
  ⟨⟨scenario_first_reachable, scenario_second_call, rfl, rfl⟩,
    ⟨(cursor_bounds_and_eos scenario_helper scenario_param ["s1", "s2"]
        scenario_first_result.scanner scenario_first_result.trace
        scenario_first_reachable).1,
      (cursor_bounds_and_eos scenario_helper scenario_param ["s1", "s2"]
        scenario_first_result.scanner scenario_first_result.trace
        scenario_first_reachable).2.1⟩,
    (cursor_bounds_and_eos scenario_helper scenario_param ["s1", "s2"]
      scenario_first_result.scanner scenario_first_result.trace
      scenario_first_reachable).2.2.2.1 scenario_chunk false scenario_second_result
      scenario_second_call rfl⟩

theorem get_new_table_ok (helper : SchemaHelper) (self : SchemaViewsScanner)
    (trace : List CatalogCall) (r : CallResult) (h : get_new_table helper self trace = some r)
    (hok : r.status = Status.OK) : r.scanner._table_index = 0 := by
  obtain ⟨db, hdb⟩ := get_new_table_some helper self trace r h
  rw [get_new_table_eq helper self trace db hdb] at h
  simp only [Option.some.injEq] at h
  split at h
  · subst h; rfl
  · rename_i hbad
    subst h
    simp only at hok
    rw [hok] at hbad
    simp [Status.ok] at hbad

/-- C14: for every state and every `get_next` call that returns, with whatever status,
`_db_index` after the call is at least `_db_index` before it; and right after every
successful view-list fetch (`get_new_table` returning OK) `_table_index` is 0 and
`_db_index` has been advanced by exactly one. -/
theorem db_index_never_decreases (helper : SchemaHelper) (self : SchemaViewsScanner)
    (chunk : Option Chunk) (eos : Option Bool) (trace : List CatalogCall) (r : GetNextResult)
    (hcall : get_next helper self chunk eos trace = some r) :
    self._db_index ≤ r.scanner._db_index ∧
      ∀ (self0 : SchemaViewsScanner) (trace0 : List CatalogCall) (r0 : CallResult),
        get_new_table helper self0 trace0 = some r0 → r0.status = Status.OK →
        r0.scanner._table_index = 0 ∧ r0.scanner._db_index = self0._db_index + 1 := by
  constructor
  · rcases get_next_some helper self _ _ trace r hcall with
      ⟨_, hs, _⟩ | ⟨c, e, exit, s1, _, _, _, hrun, hcase⟩
    · rw [hs]
    · have hf := hrun.frame.2.2.2
      rcases hcase with ⟨_, _, hr⟩ | ⟨_, hr⟩ | ⟨_, _, _, hr⟩ <;> (rw [hr]; exact hf)
  · intro self0 trace0 r0 h0 hok0
    exact ⟨get_new_table_ok helper self0 trace0 r0 h0 hok0,
      (get_new_table_db helper self0 trace0 r0 h0).1⟩

/-- The witness of C14: the first call of the spec's first scenario moves `_db_index`
from 0 to 1. -/
theorem db_index_never_decreases_witness :
    get_next scenario_helper (fresh scenario_param ["s1", "s2"]) (some scenario_chunk)
        (some false) [] = some scenario_first_result ∧
      (fresh scenario_param ["s1", "s2"])._db_index ≤ scenario_first_result.scanner._db_index :=
  have hcall : get_next scenario_helper (fresh scenario_param ["s1", "s2"])
      (some scenario_chunk) (some false) [] = some scenario_first_result := by
    rw [get_next_eq _ _ _ _ _ rfl, get_next_while_eq_fuel _ 2 _ _ (by decide)]
    decide
  ⟨hcall,
    (db_index_never_decreases scenario_helper (fresh scenario_param ["s1", "s2"])
      (some scenario_chunk) (some false) [] scenario_first_result hcall).1⟩

theorem WhileRun.db_index_le {helper : SchemaHelper} {self : SchemaViewsScanner}
    {trace : List CatalogCall} {exit : WhileExit} {self' : SchemaViewsScanner}
    {trace' : List CatalogCall} (h : WhileRun helper self trace exit self' trace')
    (hidx : self._db_index ≤ self._db_result.dbs.length) :
    self'._db_index ≤ self'._db_result.dbs.length := by
  induction h with
  | done self trace hlt => exact hidx
  | eos self trace hge hdb => exact hidx
  | error self trace r hge hdb hr hok =>
    have hd := get_new_table_db helper self trace r hr
    rw [hd.1, hd.2.1]; omega
  | step self trace r exit self' trace' hge hdb hr hok _ ih =>
    have hd := get_new_table_db helper self trace r hr
    exact ih (by rw [hd.1, hd.2.1]; omega)

theorem get_next_while_step (helper : SchemaHelper) (self : SchemaViewsScanner)
    (trace : List CatalogCall) (r : CallResult)
    (hge : self._table_index ≥ self._table_result.tables.length)
    (hdb : self._db_index < self._db_result.dbs.length)
    (hr : get_new_table helper self trace = some r) :
    get_next_while helper self trace
      = if !r.status.ok then some (WhileExit.error r.status, r.scanner, r.trace)
        else get_next_while helper r.scanner r.trace := by
  rw [get_next_while]
  simp only [hge, if_true, hdb]
  split
  · simp_all
  · rename_i r' hr'
    rw [hr] at hr'
    simp only [Option.some.injEq] at hr'
    subst hr'
    rfl

/-- C15: the advance loop of `get_next` terminates for every state with `_db_index` at
most the length of the Database List and every catalog.  It returns; the fetches it has
issued are those of the databases from `_db_index` on, one each and in order, as many as
`_db_index` has advanced, hence at most `len(Database List) - _db_index`.  It stops at once
when the View List has an unread record or when the databases are exhausted; otherwise
it fetches the next database and stops with the error if the fetch failed, stops if the
fetched view list is not empty, and goes on from there, in the same call, if it is empty. -/
theorem get_next_while_terminates (helper : SchemaHelper) (self : SchemaViewsScanner)
    (trace : List CatalogCall) (hidx : self._db_index ≤ self._db_result.dbs.length) :
    (∃ (exit : WhileExit) (self1 : SchemaViewsScanner) (trace1 : List CatalogCall),
      get_next_while helper self trace = some (exit, self1, trace1) ∧
      trace1 = trace ++
        ((self._db_result.dbs.drop self._db_index).take
          (self1._db_index - self._db_index)).map
          (fun db => CatalogCall.list_table_status (get_new_table_params self._param db)) ∧
      trace1.length = trace.length + (self1._db_index - self._db_index) ∧
      self1._db_index ≤ self._db_result.dbs.length) ∧
    (self._table_index < self._table_result.tables.length →
      get_next_while helper self trace = some (WhileExit.done, self, trace)) ∧
    (self._table_result.tables.length ≤ self._table_index →
      self._db_index = self._db_result.dbs.length →
      get_next_while helper self trace = some (WhileExit.eos, self, trace)) ∧
    (self._table_result.tables.length ≤ self._table_index →
      self._db_index < self._db_result.dbs.length →
      ∃ r, get_new_table helper self trace = some r ∧
        (r.status ≠ Status.OK →
          get_next_while helper self trace
            = some (WhileExit.error r.status, r.scanner, r.trace)) ∧
        (r.status = Status.OK → r.scanner._table_result.tables ≠ [] →
          get_next_while helper self trace = some (WhileExit.done, r.scanner, r.trace)) ∧
        (r.status = Status.OK → r.scanner._table_result.tables = [] →
          get_next_while helper self trace = get_next_while helper r.scanner r.trace)) := by
  refine ⟨?_, ?_, ?_, ?_⟩
  · have hsome := get_next_while_isSome helper _ self trace (le_refl _)
    obtain ⟨⟨exit, s1, tr1⟩, hwhile⟩ := Option.isSome_iff_exists.mp hsome
    have hrun := get_next_while_run helper _ _ _ _ _ hwhile
    have hle := hrun.db_index_le hidx
    have hf := hrun.frame
    rw [hf.2.2.1] at hle
    refine ⟨exit, s1, tr1, hwhile, hrun.trace_eq, ?_, hle⟩
    rw [hrun.trace_eq]
    simp only [List.length_append, List.length_map, List.length_take, List.length_drop]
    omega
  · intro hlt
    exact WhileRun.get_next_while_eq (WhileRun.done self trace hlt)
  · intro hge hend
    exact WhileRun.get_next_while_eq (WhileRun.eos self trace hge (by omega))
  · intro hge hdb
    have hget : self._db_result.dbs[self._db_index]?
        = some (self._db_result.dbs[self._db_index]) := List.getElem?_eq_getElem hdb
    refine ⟨_, get_new_table_eq helper self trace _ hget, ?_, ?_, ?_⟩
    · intro hne
      rw [get_next_while_step helper self trace _ hge hdb
        (get_new_table_eq helper self trace _ hget)]
      have : ¬ _ := fun h => hne ((Status.ok_iff _).mp h)
      simp only [Bool.not_eq_true] at this
      simp only [this, Bool.not_false, if_true]
    · intro hok hne
      rw [get_next_while_step helper self trace _ hge hdb
        (get_new_table_eq helper self trace _ hget)]
      have h0 := get_new_table_ok helper self trace _
        (get_new_table_eq helper self trace _ hget) hok
      simp only [(Status.ok_iff _).mpr hok, Bool.not_true, Bool.false_eq_true, if_false]
      exact WhileRun.get_next_while_eq (WhileRun.done _ _
        (by rw [h0]; exact List.length_pos.mpr hne))
    · intro hok _
      rw [get_next_while_step helper self trace _ hge hdb
        (get_new_table_eq helper self trace _ hget)]
      simp only [(Status.ok_iff _).mpr hok, Bool.not_true, Bool.false_eq_true, if_false]

/-- The witness of C15: on the Database List `["e1", "e2", "s1", "s2"]` with views only in
`s1`, the loop started on the fresh scanner issues three fetches in one run. -/
theorem get_next_while_terminates_witness :
    (fresh scenario_param ["e1", "e2", "s1", "s2"])._db_index
        ≤ (fresh scenario_param ["e1", "e2", "s1", "s2"])._db_result.dbs.length ∧
      get_next_while sparse_helper (fresh scenario_param ["e1", "e2", "s1", "s2"]) []
        = some (WhileExit.done,
            ⟨true, scenario_param, 3, 0, ⟨["e1", "e2", "s1", "s2"]⟩, ⟨[⟨"v1", "SELECT 1"⟩]⟩⟩,
            [CatalogCall.list_table_status (get_new_table_params scenario_param "e1"),
              CatalogCall.list_table_status (get_new_table_params scenario_param "e2"),
              CatalogCall.list_table_status (get_new_table_params scenario_param "s1")]) ∧
      ∃ (exit : WhileExit) (self1 : SchemaViewsScanner) (trace1 : List CatalogCall),
        get_next_while sparse_helper (fresh scenario_param ["e1", "e2", "s1", "s2"]) []
          = some (exit, self1, trace1) ∧
        trace1 = [] ++
          (((fresh scenario_param ["e1", "e2", "s1", "s2"])._db_result.dbs.drop
              (fresh scenario_param ["e1", "e2", "s1", "s2"])._db_index).take
            (self1._db_index
              - (fresh scenario_param ["e1", "e2", "s1", "s2"])._db_index)).map
            (fun db => CatalogCall.list_table_status
              (get_new_table_params (fresh scenario_param ["e1", "e2", "s1", "s2"])._param db)) ∧
        trace1.length = ([] : List CatalogCall).length
          + (self1._db_index - (fresh scenario_param ["e1", "e2", "s1", "s2"])._db_index) ∧
        self1._db_index
          ≤ (fresh scenario_param ["e1", "e2", "s1", "s2"])._db_result.dbs.length :=
  ⟨by decide,
    by rw [get_next_while_eq_fuel _ 4 _ _ (by decide)]; decide,
    (get_next_while_terminates sparse_helper (fresh scenario_param ["e1", "e2", "s1", "s2"])
      [] (by decide)).1⟩

/-! ## The requests of a whole enumeration -/

theorem ReachableFrom.reachable {helper : SchemaHelper} {param : SchemaScannerParam}
    {dbs : List String} {trace0 : List CatalogCall} {self : SchemaViewsScanner}
    {trace : List CatalogCall} (h : ReachableFrom helper param dbs trace0 self trace) :
    Reachable helper param dbs self trace := by
  induction h with
  | start => exact Reachable.start trace0
  | next self trace chunk eos r _ hcall hok ih =>
    exact Reachable.next self trace chunk eos r ih hcall hok

theorem ReachableFrom.requests {helper : SchemaHelper} {param : SchemaScannerParam}
    {dbs : List String} {trace0 : List CatalogCall} {self : SchemaViewsScanner}
    {trace : List CatalogCall} (h : ReachableFrom helper param dbs trace0 self trace) :
    trace = trace0 ++ (dbs.take self._db_index).map fun db =>
      CatalogCall.list_table_status (get_new_table_params param db) := by
  induction h with
  | start => simp [fresh]
  | next self trace chunk eos r hreach hcall hok ih =>
    obtain ⟨_, i2, i3, _, _, _⟩ := hreach.reachable.scanner_inv
    rcases get_next_some helper self _ _ trace r hcall with
      ⟨hbad, _⟩ | ⟨c, e, exit, s1, _, _, _, hrun, hcase⟩
    · rw [hok] at hbad
      simp [Status.ok] at hbad
    · have hidx : r.scanner._db_index = s1._db_index := by
        rcases hcase with ⟨_, _, hr⟩ | ⟨_, hr⟩ | ⟨_, _, _, hr⟩ <;> rw [hr]
      have hle := hrun.frame.2.2.2
      have hsplit : s1._db_index = self._db_index + (s1._db_index - self._db_index) := by
        omega
      rw [hrun.trace_eq, hidx, i2, i3, ih]
      conv_rhs => rw [hsplit, List.take_add]
      simp only [List.map_append, List.append_assoc]

/-- C16: over the lifetime of a scanner freshly started at catalog history `trace0`, whose
`get_next` calls return OK, the view-list requests issued so far are those of the first
`_db_index` databases of the Database List, one each and in order: the k-th (0-based)
names `dbs[k]`.  Every such request names its database, has table type VIEW and carries
the view-name pattern iff the request parameters have one (`wild`).  When a call reports
`eos` the history holds exactly one request per database, in Database List order.  The
database-list request of `start` carries the database-name pattern iff one was supplied. -/
theorem view_list_requests_in_order (helper : SchemaHelper) (param : SchemaScannerParam)
    (dbs : List String) (trace0 : List CatalogCall) (self : SchemaViewsScanner)
    (trace : List CatalogCall) (hreach : ReachableFrom helper param dbs trace0 self trace) :
    trace = trace0 ++ (dbs.take self._db_index).map
        (fun db => CatalogCall.list_table_status (get_new_table_params param db)) ∧
      self._db_index ≤ dbs.length ∧
      (∀ k, k < self._db_index →
        (trace)[trace0.length + k]?
          = (dbs[k]?).map fun db =>
              CatalogCall.list_table_status (get_new_table_params param db)) ∧
      (∀ db, (get_new_table_params param db).db = some db ∧
        (get_new_table_params param db).type = some TTableType.VIEW ∧
        (get_new_table_params param db).pattern = param.wild) ∧
      (∀ (chunk : Chunk) (eos : Bool) (r : GetNextResult),
        get_next helper self (some chunk) (some eos) trace = some r →
        r.status = Status.OK → r.eos = some true →
        r.trace = trace0 ++ dbs.map
          (fun db => CatalogCall.list_table_status (get_new_table_params param db))) ∧
      (start_db_params param).pattern = param.db ∧
      ∀ (self0 : SchemaViewsScanner) (t : List CatalogCall),
        (start helper Status.OK { self0 with _is_init := true, _param := param } t).trace
          = t ++ [CatalogCall.get_db_names (start_db_params param)] := by
  have hinv := hreach.reachable.scanner_inv
  have hreq := hreach.requests
  refine ⟨hreq, hinv.2.2.2.1, ?_, ?_, ?_, ?_, ?_⟩
  · intro k hk
    have hkl : k < dbs.length := by have := hinv.2.2.2.1; omega
    rw [hreq, List.getElem?_append_right (by omega)]
    simp only [Nat.add_sub_cancel_left, List.getElem?_map]
    rw [List.getElem?_take_of_lt hk]
  · intro db
    obtain ⟨pdb, wild, user, user_ip, ident⟩ := param
    cases wild <;> cases user <;> cases user_ip <;> cases ident <;>
      simp [get_new_table_params]
  · intro chunk eos r hcall hok heos
    have hnext := ReachableFrom.next self trace chunk eos r hreach hcall hok
    have hreq' := hnext.requests
    have hge : dbs.length ≤ r.scanner._db_index := by
      rcases get_next_some helper self _ _ trace r hcall with
        ⟨hbad, _⟩ | ⟨c, e, exit, s1, _, _, _, hrun, hcase⟩
      · rw [hok] at hbad
        simp [Status.ok] at hbad
      · rcases hcase with ⟨status, hexit, hr⟩ | ⟨hexit, hr⟩ | ⟨_, _, _, hr⟩
        · have hx := hrun.exit_state.2.2 status hexit
          rw [hr] at hok
          simp only at hok
          rw [hok] at hx
          simp [Status.ok] at hx
        · have hx := (hrun.exit_state.2.1 hexit).2
          rw [hrun.frame.2.2.1, hinv.2.2.1] at hx
          rw [hr]
          exact hx
        · rw [hr] at heos
          simp at heos
    rw [hreq', List.take_of_length_le hge]
  · obtain ⟨pdb, wild, user, user_ip, ident⟩ := param
    cases pdb <;> cases user <;> cases user_ip <;> cases ident <;> simp [start_db_params]
  · intro self0 t
    simp only [start, Bool.not_true, Bool.false_eq_true, if_false, Status.ok]
    split <;> rfl

/-- The witness of C16: the spec's first scenario with a request that has both patterns
and an explicit identity.  After the first call the history is the one request for `s1`,
the 0-th request, of type VIEW and with the view-name pattern; the second call reports
`eos`, and the history is then one request per database, `s1` then `s2`. -/
theorem view_list_requests_in_order_witness :
    (ReachableFrom scenario_helper identified_param ["s1", "s2"] []
        identified_first_result.scanner identified_first_result.trace ∧
      (0 : Nat) < identified_first_result.scanner._db_index ∧
      get_next scenario_helper identified_first_result.scanner (some scenario_chunk)
        (some false) identified_first_result.trace = some identified_second_result ∧
      identified_second_result.status = Status.OK ∧
      identified_second_result.eos = some true) ∧
    identified_first_result.trace
      = [] ++ (["s1", "s2"].take identified_first_result.scanner._db_index).map
          (fun db => CatalogCall.list_table_status (get_new_table_params identified_param db)) ∧
    (identified_first_result.trace)[([] : List CatalogCall).length + 0]?
      = (["s1", "s2"][0]?).map
          (fun db => CatalogCall.list_table_status (get_new_table_params identified_param db)) ∧
    (identified_first_result.trace)[0]?
      = some (CatalogCall.list_table_status
          ⟨some "s1", some "v%", none, none, some ⟨"root", "%"⟩, some TTableType.VIEW⟩) ∧
    identified_second_result.trace
      = [] ++ ["s1", "s2"].map
          (fun db => CatalogCall.list_table_status (get_new_table_params identified_param db)) :=
  have hreach : ReachableFrom scenario_helper identified_param ["s1", "s2"] []
      identified_first_result.scanner identified_first_result.trace :=
    ReachableFrom.next _ _ scenario_chunk false identified_first_result ReachableFrom.start
      identified_first_call rfl
  ⟨⟨hreach, by decide, identified_second_call, rfl, rfl⟩,
    (view_list_requests_in_order scenario_helper identified_param ["s1", "s2"] []
      identified_first_result.scanner identified_first_result.trace hreach).1,
    (view_list_requests_in_order scenario_helper identified_param ["s1", "s2"] []
      identified_first_result.scanner identified_first_result.trace hreach).2.2.1 0
      (by decide),
    by decide,
    (view_list_requests_in_order scenario_helper identified_param ["s1", "s2"] []
      identified_first_result.scanner identified_first_result.trace hreach).2.2.2.2.1
      scenario_chunk false identified_second_result identified_second_call rfl rfl⟩

/-! ## `fill_chunk` on its own: unknown slots, index safety, frame -/

theorem with_row_projection (chunk : Chunk) (extract : String → String) (db : String)
    (tbl_status : TTableStatus) :
    chunk.with_row (projection_rule extract db tbl_status)
      = ⟨chunk.columns.map fun e =>
          if 1 ≤ e.1 ∧ e.1 ≤ 10 then
            (e.1, e.2 ++ [(projection_rule extract db tbl_status e.1).getD ""])
          else e⟩ := by
  simp only [Chunk.with_row, Chunk.mk.injEq]
  apply List.map_congr_left
  intro en _
  have hsome := projection_rule_isSome extract db tbl_status en.1
  cases hv : projection_rule extract db tbl_status en.1 with
  | none =>
    rw [hv] at hsome
    have : ¬ (1 ≤ en.1 ∧ en.1 ≤ 10) := fun h => by simpa using hsome.mpr h
    simp [this]
  | some v =>
    rw [hv] at hsome
    have : 1 ≤ en.1 ∧ en.1 ≤ 10 := hsome.mp rfl
    simp [this]

/-- C17: `fill_chunk` on a chunk whose slot map may contain slot ids outside 1..10 (each
slot id registered once), with every index it reads in range.  It returns OK, advances
`_table_index` by exactly 1, appends to each column whose slot id is in 1..10 the one
value of the projection rule for that slot, and leaves every column whose slot id is
outside 1..10 exactly as it was: such a slot is skipped, without an error. -/
theorem fill_chunk_skips_unknown_slots (helper : SchemaHelper) (self : SchemaViewsScanner)
    (chunk : Chunk) (tbl_status : TTableStatus) (db : String) (hwf : chunk.WF)
    (htbl : self._table_result.tables[self._table_index]? = some tbl_status)
    (hdb : (2 : Int) ∈ chunk.columns.map Prod.fst →
      self._db_index ≠ 0 ∧ self._db_result.dbs[self._db_index - 1]? = some db) :
    fill_chunk helper self chunk
        = some (Status.OK, { self with _table_index := self._table_index + 1 },
            ⟨chunk.columns.map fun e =>
              if 1 ≤ e.1 ∧ e.1 ≤ 10 then
                (e.1, e.2 ++ [(projection_rule helper.extract_db_name db tbl_status e.1).getD ""])
              else e⟩) ∧
      ∀ e ∈ chunk.columns, ¬ (1 ≤ e.1 ∧ e.1 ≤ 10) →
        e ∈ (chunk.columns.map fun e =>
          if 1 ≤ e.1 ∧ e.1 ≤ 10 then
            (e.1, e.2 ++ [(projection_rule helper.extract_db_name db tbl_status e.1).getD ""])
          else e) := by
  constructor
  · rw [fill_chunk_eq helper self chunk tbl_status db hwf htbl hdb, with_row_projection]
  · intro e he hout
    exact List.mem_map.mpr ⟨e, he, by simp [hout]⟩

/-- The witness of C17: a chunk with the unknown slot ids 0, 11 and -7 next to 2 and 3. -/
theorem fill_chunk_skips_unknown_slots_witness :
    (unknown_slots_chunk.WF ∧
      scenario_fetched._table_result.tables[scenario_fetched._table_index]?
        = some ⟨"v1", "SELECT 1"⟩ ∧
      ((2 : Int) ∈ unknown_slots_chunk.columns.map Prod.fst →
        scenario_fetched._db_index ≠ 0 ∧
        scenario_fetched._db_result.dbs[scenario_fetched._db_index - 1]? = some "s1")) ∧
    fill_chunk scenario_helper scenario_fetched unknown_slots_chunk
      = some (Status.OK, { scenario_fetched with _table_index := 1 },
          ⟨[(0, []), (2, ["s1"]), (3, ["v1"]), (11, ["kept"]), (-7, [])]⟩) :=
  ⟨⟨by decide, rfl, fun _ => ⟨by decide, rfl⟩⟩,
    (fill_chunk_skips_unknown_slots scenario_helper scenario_fetched unknown_slots_chunk
      ⟨"v1", "SELECT 1"⟩ "s1" (by decide) rfl (fun _ => ⟨by decide, rfl⟩)).1.trans
      (by decide)⟩

/-- C18: index safety and ownership.  In every state a freshly started scanner reaches
through `get_next` calls that return OK: the loop of `get_next` returns (no
`dbs[_db_index]` of `get_new_table` is read out of range; `get_new_table` returns whenever
it is entered under the loop's guard `_db_index < len(Database List)`); whenever the loop
is left towards `fill_chunk`, with scanner `self1`, `_table_index < len(View List)` and
`1 <= _db_index <= len(Database List)`, so that `tables[_table_index]` and
`dbs[_db_index - 1]` are in range, and the View List is what the last call in the catalog
history, the view-list fetch for `dbs[_db_index - 1]`, wrote; and `get_next` as a whole
returns on every chunk that registers each slot id once. -/
theorem index_safety_and_ownership (helper : SchemaHelper) (param : SchemaScannerParam)
    (dbs : List String) (self : SchemaViewsScanner) (trace : List CatalogCall)
    (hreach : Reachable helper param dbs self trace) :
    (get_next_while helper self trace).isSome = true ∧
      (∀ (self0 : SchemaViewsScanner) (trace0 : List CatalogCall),
        self0._db_index < self0._db_result.dbs.length →
        (get_new_table helper self0 trace0).isSome = true) ∧
      (∀ (self1 : SchemaViewsScanner) (trace1 : List CatalogCall),
        get_next_while helper self trace = some (WhileExit.done, self1, trace1) →
        self1._table_index < self1._table_result.tables.length ∧
        1 ≤ self1._db_index ∧ self1._db_index ≤ self1._db_result.dbs.length ∧
        (∃ view_record, self1._table_result.tables[self1._table_index]? = some view_record) ∧
        ∃ (history : List CatalogCall) (old : TListTableStatusResult) (db : String),
          self1._db_result.dbs[self1._db_index - 1]? = some db ∧
          trace1 = history ++
            [CatalogCall.list_table_status (get_new_table_params self1._param db)] ∧
          self1._table_result
            = (helper.list_table_status history (get_new_table_params self1._param db)
                old).2) ∧
      ∀ (chunk : Chunk) (eos : Bool), chunk.WF →
        (get_next helper self (some chunk) (some eos) trace).isSome = true := by
  have hinv := hreach.scanner_inv
  have hsome := get_next_while_isSome helper _ self trace (le_refl _)
  have hdone : ∀ (self1 : SchemaViewsScanner) (trace1 : List CatalogCall),
      get_next_while helper self trace = some (WhileExit.done, self1, trace1) →
      self1._table_index < self1._table_result.tables.length ∧
      1 ≤ self1._db_index ∧ self1._db_index ≤ self1._db_result.dbs.length ∧
      ∃ (history : List CatalogCall) (old : TListTableStatusResult) (db : String),
        self1._db_result.dbs[self1._db_index - 1]? = some db ∧
        trace1 = history ++
          [CatalogCall.list_table_status (get_new_table_params self1._param db)] ∧
        self1._table_result
          = (helper.list_table_status history (get_new_table_params self1._param db)
              old).2 := by
    intro s1 tr1 hwhile
    have hrun := get_next_while_run helper _ _ _ _ _ hwhile
    obtain ⟨_, _, j3, j4, _, j6⟩ := hrun.preserves_inv hinv (by intro status; simp)
    have hlt := hrun.exit_state.1 rfl
    rcases j6 with ⟨_, hempty⟩ | ⟨history, old, db, o1, o2, o3, o4⟩
    · rw [hempty] at hlt
      simp at hlt
    · exact ⟨hlt, by omega, by rw [j3]; exact j4, history, old, db, o2, o3, o4⟩
  refine ⟨hsome, ?_, ?_, ?_⟩
  · intro self0 trace0 hlt
    rw [get_new_table_eq helper self0 trace0 _ (List.getElem?_eq_getElem hlt)]
    rfl
  · intro s1 tr1 hwhile
    obtain ⟨h1, h2, h3, h4⟩ := hdone s1 tr1 hwhile
    exact ⟨h1, h2, h3, ⟨_, List.getElem?_eq_getElem h1⟩, h4⟩
  · intro chunk eos hwf
    rw [get_next_eq helper self chunk eos trace hinv.1]
    obtain ⟨⟨exit, s1, tr1⟩, hwhile⟩ := Option.isSome_iff_exists.mp hsome
    rw [hwhile]
    cases exit with
    | error status => rfl
    | eos => rfl
    | done =>
      obtain ⟨h1, h2, _, _, _, db, o2, _, _⟩ := hdone s1 tr1 hwhile
      simp only
      rw [fill_chunk_eq helper s1 chunk _ db hwf (List.getElem?_eq_getElem h1)
        (fun _ => ⟨by omega, o2⟩)]
      rfl

/-- The witness of C18: the freshly started scanner of the spec's first scenario. -/
theorem index_safety_and_ownership_witness :
    Reachable scenario_helper scenario_param ["s1", "s2"]
        (fresh scenario_param ["s1", "s2"]) [] ∧
      (get_next scenario_helper (fresh scenario_param ["s1", "s2"]) (some scenario_chunk)
        (some false) []).isSome = true :=
  ⟨Reachable.start [],
    (index_safety_and_ownership scenario_helper scenario_param ["s1", "s2"]
      (fresh scenario_param ["s1", "s2"]) [] (Reachable.start [])).2.2.2
      scenario_chunk false (by decide)⟩

/-- C19: when the current View List still has unread records
(`_table_index < len(View List)`), a `get_next` call on an initialised scanner with
non-null handles (each slot id registered once, `dbs[_db_index - 1]` in range if slot 2 is
registered) returns OK and issues no catalog call: the history is unchanged.  The scanner
is as before except that `_table_index` is increased by 1, so `_db_index`, the Database
List and the View List are unchanged; `eos` is set to false and the chunk has received
the row of the record at the old `_table_index`. -/
theorem get_next_unread_frame (helper : SchemaHelper) (self : SchemaViewsScanner)
    (chunk : Chunk) (eos : Bool) (trace : List CatalogCall) (db : String)
    (hinit : self._is_init = true)
    (hlt : self._table_index < self._table_result.tables.length) (hwf : chunk.WF)
    (hdb : (2 : Int) ∈ chunk.columns.map Prod.fst →
      self._db_index ≠ 0 ∧ self._db_result.dbs[self._db_index - 1]? = some db) :
    get_next helper self (some chunk) (some eos) trace
      = some ⟨Status.OK, { self with _table_index := self._table_index + 1 },
          some ⟨chunk.columns.map fun e =>
            (e.1, e.2 ++ (projection_rule helper.extract_db_name db
              (self._table_result.tables[self._table_index]) e.1).toList)⟩,
          some false, trace⟩ := by
  rw [get_next_eq helper self chunk eos trace hinit,
    WhileRun.get_next_while_eq (WhileRun.done self trace hlt)]
  simp only
  rw [fill_chunk_eq helper self chunk _ db hwf (List.getElem?_eq_getElem hlt) hdb]
  rfl

/-- The witness of C19: the scanner of the spec's first scenario with the record of `v1`
unread. -/
theorem get_next_unread_frame_witness :
    (scenario_fetched._is_init = true ∧
      scenario_fetched._table_index < scenario_fetched._table_result.tables.length ∧
      scenario_chunk.WF ∧
      ((2 : Int) ∈ scenario_chunk.columns.map Prod.fst →
        scenario_fetched._db_index ≠ 0 ∧
        scenario_fetched._db_result.dbs[scenario_fetched._db_index - 1]? = some "s1")) ∧
    get_next scenario_helper scenario_fetched (some scenario_chunk) (some true) []
      = some ⟨Status.OK, { scenario_fetched with _table_index := 1 },
          some ⟨[(1, ["def"]), (2, ["s1"]), (3, ["v1"]), (4, ["SELECT 1"]), (5, ["NONE"]),
            (6, ["NO"]), (7, [""]), (8, [""]), (9, ["utf8"]), (10, ["utf8_general_ci"])]⟩,
          some false, []⟩ :=
  ⟨⟨rfl, by decide, by decide, fun _ => ⟨by decide, rfl⟩⟩,
    (get_next_unread_frame scenario_helper scenario_fetched scenario_chunk true [] "s1"
      rfl (by decide) (by decide) (fun _ => ⟨by decide, rfl⟩)).trans (by decide)⟩

end starrocks
